import Mathlib

/-!
Shallow embedding of the order-placement / order-mutation core of the
ai-agent-restaurant-backend repository (NestJS + Prisma), together with
proofs checking the natural-language specification against it.

Sources embedded:
* `src/modules/orders/orders.service.ts` (`OrdersService`: createOrder,
  getOrderById, cancelOrder (hard delete), addItemsToOrder);
* the `OrderTablesService` variant (status-tracking: updateOrderStatus,
  cancelOrder via status, addItemsToOrder with terminal-status guard,
  lazy table generation);
* the `TablesService` variant of `getTablesByRestaurant` /
  `generateTablesForRestaurant`;
* the CSV menu-replacement engine (`validateCsvData`,
  `uploadNewRestaurantMenu`) of the `RestaurantService` variant that
  validates rows and replaces the menu inside a transaction.

The TypeScript code computes order totals in JavaScript `number`
arithmetic (IEEE-754 binary64) and stores them through
`new Prisma.Decimal(n)`, which converts a JS number via its
shortest-round-trip decimal string.  Both conversions are modelled
exactly over an explicit fraction type `Q` (integer numerator, positive
integer denominator, not kept in lowest terms so that every operation
is a small kernel-reducible term): `fpRound` is round-to-nearest-even
at 53 significant bits (overflow/subnormal ranges are irrelevant for
currency amounts and not modelled), and `shortestOfDouble` is the
shortest decimal that round-trips through `fpRound`.
-/

namespace RestaurantBackend

set_option maxRecDepth 8000

/-! ## Exact fraction arithmetic (kernel-evaluation friendly) -/

/-- Fraction with integer numerator and (by construction) positive
denominator.  Not normalised; semantic equality is `qEq`. -/
structure Q where
  num : ℤ
  den : ℤ
deriving DecidableEq

/-- Fraction with denominator one. -/
def qInt (n : ℤ) : Q := ⟨n, 1⟩

/-- Semantic equality of fractions by cross-multiplication. -/
def qEq (a b : Q) : Bool := a.num * b.den == b.num * a.den

/-- Strict order on fractions (denominators positive). -/
def qLt (a b : Q) : Bool := decide (a.num * b.den < b.num * a.den)

/-- Non-strict order on fractions (denominators positive). -/
def qLe (a b : Q) : Bool := decide (a.num * b.den ≤ b.num * a.den)

/-- Fraction addition. -/
def qAdd (a b : Q) : Q := ⟨a.num * b.den + b.num * a.den, a.den * b.den⟩

/-- Fraction multiplication. -/
def qMul (a b : Q) : Q := ⟨a.num * b.num, a.den * b.den⟩

/-- Fraction negation. -/
def qNeg (a : Q) : Q := ⟨-a.num, a.den⟩

/-- Fraction subtraction. -/
def qSub (a b : Q) : Q := qAdd a (qNeg b)

/-- Whether a fraction is zero. -/
def qIsZero (a : Q) : Bool := a.num == 0

/-- Whether a fraction is negative. -/
def qIsNeg (a : Q) : Bool := decide (a.num < 0)

/-! ## IEEE-754 binary64 ("JS number") model over `Q` -/

/-- Round a nonnegative fraction to the nearest integer, ties to even. -/
def roundNE (q : Q) : ℤ :=
  let n : ℤ := Int.ediv q.num q.den
  let r : Q := qSub q (qInt n)
  if qLt r ⟨1, 2⟩ then n
  else if qLt ⟨1, 2⟩ r then n + 1
  else if Int.emod n 2 == 0 then n else n + 1

/-- Shift a positive fraction into the binary64 significand range
`[2^52, 2^53)`, returning the shifted significand `m` and the power of
two `s` with input `= m * s`.  Fuel bounds the recursion; 1300 covers
the whole finite double range.  Implemented with a bare `Nat.rec` so
that kernel evaluation stays shallow (the recursive call is forced only
on the branches that take it). -/
def fpShift (fuel : Nat) : Q → Q → Q × Q :=
  @Nat.rec (fun _ => Q → Q → Q × Q)
    (fun q s => (q, s))
    (fun _ ih q s =>
      if qLt q (qInt 4503599627370496) then ih (qMul q (qInt 2)) ⟨s.num, s.den * 2⟩
      else if qLe (qInt 9007199254740992) q then ih ⟨q.num, q.den * 2⟩ (qMul s (qInt 2))
      else (q, s))
    fuel

/-- Round a positive fraction to the nearest binary64 value. -/
def fpRoundPos (q : Q) : Q :=
  let p := fpShift 1300 q (qInt 1)
  qMul (qInt (roundNE p.1)) p.2

/-- Round a fraction to the nearest binary64 value (round-to-nearest,
ties-to-even); the model of what storing a real number in a JS `number`
does. -/
def fpRound (q : Q) : Q :=
  if qIsZero q then qInt 0
  else if qIsNeg q then qNeg (fpRoundPos (qNeg q))
  else fpRoundPos q

/-- JS `+` on numbers: exact sum, rounded back to binary64. -/
def jsAdd (a b : Q) : Q := fpRound (qAdd a b)

/-- JS `*` on numbers: exact product, rounded back to binary64. -/
def jsMul (a b : Q) : Q := fpRound (qMul a b)

/-- Shift a positive fraction into `[1, 10)`, returning the shifted
value `m` and the power of ten `s` with input `= m * s`. -/
def decShift (fuel : Nat) : Q → Q → Q × Q :=
  @Nat.rec (fun _ => Q → Q → Q × Q)
    (fun q s => (q, s))
    (fun _ ih q s =>
      if qLt q (qInt 1) then ih (qMul q (qInt 10)) ⟨s.num, s.den * 10⟩
      else if qLe (qInt 10) q then ih ⟨q.num, q.den * 10⟩ (qMul s (qInt 10))
      else (q, s))
    fuel

/-- Power of ten as a fraction, by repeated multiplication through a
bare `Nat.rec`. -/
def pow10Q : Nat → Q :=
  @Nat.rec (fun _ => Q) (qInt 1) (fun _ ih => ⟨ih.num * 10, ih.den⟩)

/-- Round a positive fraction to `n` significant decimal digits
(nearest, ties to even).  `s` and `t` are positive powers of ten, so
dividing by them is multiplication by the flipped fraction. -/
def roundSig (x : Q) (n : Nat) : Q :=
  let s := (decShift 700 x (qInt 1)).2
  let t := pow10Q (n - 1)
  let scaled := qMul (qMul x t) ⟨s.den, s.num⟩
  qMul (qMul (qInt (roundNE scaled)) s) ⟨t.den, t.num⟩

/-- Search for the smallest significant-digit count whose rounding of
`x` round-trips through `fpRound` back to `x`.  For an actual binary64
value 17 digits always suffice. -/
def shortestGo (x : Q) (fuel : Nat) : Nat → Q :=
  @Nat.rec (fun _ => Nat → Q)
    (fun n => roundSig x n)
    (fun _ ih n =>
      let d := roundSig x n
      if qEq (fpRound d) x then d else ih (n + 1))
    fuel

/-- Decimal value of the shortest round-trip decimal representation of
a binary64 value: the model of JS `Number.prototype.toString` and hence
of `new Prisma.Decimal(someJsNumber)` (decimal.js stringifies number
arguments before parsing them). -/
def shortestOfDouble (x : Q) : Q :=
  if qIsZero x then qInt 0
  else if qIsNeg x then qNeg (shortestGo (qNeg x) 17 1)
  else shortestGo x 17 1

/-- Prisma `Decimal` column value obtained from a JS number. -/
def prismaDecimalOfNumber (x : Q) : Q := shortestOfDouble x

/-! ## JS string helpers (ASCII fragment, as used by the services) -/

/-- Characters removed by JS `String.prototype.trim` (ASCII fragment;
the services only trim CSV cells). -/
def isJsSpace (c : Char) : Bool := c = ' ' || c = '\t' || c = '\n' || c = '\r'

/-- JS `trim` on both ends. -/
def jsTrim (s : String) : String :=
  String.mk (((s.data.dropWhile isJsSpace).reverse.dropWhile isJsSpace).reverse)

/-- JS `toLowerCase` (ASCII fragment). -/
def jsToLower (s : String) : String :=
  String.mk (s.data.map fun c =>
    if 'A' ≤ c && c ≤ 'Z' then Char.ofNat (c.toNat + 32) else c)

/-- Power of ten on naturals through a bare `Nat.rec`. -/
def pow10Nat : Nat → Nat :=
  @Nat.rec (fun _ => Nat) 1 (fun _ ih => ih * 10)

/-- Digit-run parser: consumes leading decimal digits, returning their
value, how many there were, and the rest of the input. -/
def digitsAux : List Char → Nat → Nat → Nat × Nat × List Char
  | [], acc, cnt => (acc, cnt, [])
  | c :: cs, acc, cnt =>
    if c.isDigit then digitsAux cs (acc * 10 + (c.toNat - 48)) (cnt + 1)
    else (acc, cnt, c :: cs)

/-- Exponent-part parser for `parseFloat`: optional sign then digits;
returns the exponent and whether at least one digit was present (JS
ignores a dangling `e`/`e+`). -/
def parseExpPart (l : List Char) : ℤ × Bool :=
  let p := match l with
    | c :: cs => if c = '-' then ((-1 : ℤ), cs) else if c = '+' then ((1 : ℤ), cs) else ((1 : ℤ), l)
    | [] => ((1 : ℤ), [])
  let d := digitsAux p.2 0 0
  (p.1 * Int.ofNat d.1, d.2.1 != 0)

/-- Power of ten with integer exponent, as a fraction. -/
def qPow10Z (e : ℤ) : Q :=
  if 0 ≤ e then ⟨Int.ofNat (pow10Nat e.toNat), 1⟩ else ⟨1, Int.ofNat (pow10Nat (-e).toNat)⟩

/-- Model of JS `parseFloat` (returns `none` for NaN): leading
whitespace skipped, optional sign, decimal digits with optional
fractional part and optional exponent; at least one mantissa digit is
required.  The special literal `Infinity` is not modelled (no claim
depends on it).  The exact decimal value is returned; callers apply
`fpRound` to account for the `number` result type. -/
def parseFloatQ (s : String) : Option Q :=
  let l := s.data.dropWhile isJsSpace
  let sp : ℤ × List Char := match l with
    | c :: cs => if c = '-' then (-1, cs) else if c = '+' then (1, cs) else (1, l)
    | [] => (1, [])
  let ip := digitsAux sp.2 0 0
  let fp : Nat × Nat × List Char := match ip.2.2 with
    | c :: cs => if c = '.' then digitsAux cs 0 0 else (0, 0, ip.2.2)
    | [] => (0, 0, [])
  if ip.2.1 == 0 && fp.2.1 == 0 then none
  else
    let mant : Q :=
      ⟨sp.1 * Int.ofNat (ip.1 * pow10Nat fp.2.1 + fp.1), Int.ofNat (pow10Nat fp.2.1)⟩
    let ex : ℤ × Bool := match fp.2.2 with
      | c :: cs => if c = 'e' || c = 'E' then parseExpPart cs else (0, false)
      | [] => (0, false)
    some (if ex.2 then qMul mant (qPow10Z ex.1) else mant)

/-! ## Data model

Logical relational state shared by all embedded services: entity lists
(rows) plus fresh-id counters modelling auto-increment primary keys. -/

/-- Order lifecycle states (status-tracking variant; rows created by
the simple variant carry the schema default `PENDING` and never read
it). -/
inductive OrderStatus where
  | PENDING
  | PREPARING
  | READY
  | SERVED
  | COMPLETED
  | CANCELLED
deriving DecidableEq

/-- Restaurant row (fields the embedded services read). -/
structure Restaurant where
  id : Nat
  ownerId : Nat
  numberOfTables : Nat
  name : String
deriving DecidableEq

/-- Table row. -/
structure Table where
  id : Nat
  tableNumber : Nat
  restaurantId : Nat
deriving DecidableEq

/-- Menu category row. -/
structure MenuCategory where
  id : Nat
  name : String
  restaurantId : Nat
deriving DecidableEq

/-- Menu item row.  `price` is a Prisma `Decimal` column, held exactly. -/
structure MenuItem where
  id : Nat
  name : String
  description : String
  price : Q
  currency : String
  isAvailable : Bool
  tags : List String
  allergens : List String
  categoryId : Nat
deriving DecidableEq

/-- Order row.  `total` is a Prisma `Decimal` column, held exactly. -/
structure Order where
  id : Nat
  tableId : Nat
  total : Q
  currency : String
  status : OrderStatus
deriving DecidableEq

/-- Order line row with the price snapshot taken at ordering time. -/
structure OrderItem where
  orderId : Nat
  menuItemId : Nat
  quantity : Nat
  price : Q
deriving DecidableEq

/-- Database state. -/
structure Db where
  restaurants : List Restaurant
  tables : List Table
  categories : List MenuCategory
  menuItems : List MenuItem
  orders : List Order
  orderItems : List OrderItem
  nextTableId : Nat
  nextCategoryId : Nat
  nextMenuItemId : Nat
  nextOrderId : Nat
deriving DecidableEq

/-- Typed errors thrown by the services (`internal` stands for an
uncaught JS runtime exception, which surfaces as a 500 rather than a
typed error). -/
inductive ApiError where
  | notFound (msg : String)
  | badRequest (msg : String)
  | badRequestList (msg : String) (errors : List String)
  | forbidden (msg : String)
  | internal (msg : String)
deriving DecidableEq

deriving instance DecidableEq for Except

/-- Requested order line (already validated by the DTO layer:
`menuItemId` positive integer, `quantity ≥ 1`). -/
structure RequestedItem where
  menuItemId : Nat
  quantity : Nat
deriving DecidableEq

/-- Model of `prisma.restaurant.findUnique({ where: { id } })`. -/
def findRestaurant (db : Db) (rid : Nat) : Option Restaurant :=
  db.restaurants.find? (fun r => r.id == rid)

/-- Model of `prisma.table.findUnique({ where: { id } })`. -/
def findTable (db : Db) (tid : Nat) : Option Table :=
  db.tables.find? (fun t => t.id == tid)

/-- Model of `prisma.order.findUnique({ where: { id } })`. -/
def findOrder (db : Db) (oid : Nat) : Option Order :=
  db.orders.find? (fun o => o.id == oid)

/-- Category lookup used to model the `category: { restaurantId }`
relation filter. -/
def findCategory (db : Db) (cid : Nat) : Option MenuCategory :=
  db.categories.find? (fun c => c.id == cid)

/-- Whether a menu item's category belongs to the given restaurant
(the "critical security check" relation filter). -/
def itemInRestaurant (db : Db) (rid : Nat) (mi : MenuItem) : Bool :=
  match findCategory db mi.categoryId with
  | some c => c.restaurantId == rid
  | none => false

/-- Model of the `prisma.menuItem.findMany` query used by both order
services: id in the requested set, category owned by the restaurant,
and available. -/
def resolveMenuItems (db : Db) (rid : Nat) (ids : List Nat) : List MenuItem :=
  db.menuItems.filter (fun mi =>
    ids.contains mi.id && itemInRestaurant db rid mi && mi.isAvailable)

/-- Requested ids that did not resolve:
`menuItemIds.filter((id) => !foundIds.includes(id))`. -/
def missingIds (ids : List Nat) (found : List MenuItem) : List Nat :=
  ids.filter (fun i => !((found.map (fun mi => mi.id)).contains i))

/-- Error message listing the missing ids, as built by the services. -/
def missingMessage (ids : List Nat) : String :=
  "Menu items not found or unavailable in this restaurant: " ++
    String.intercalate ", " (ids.map Nat.repr)

/-- Per-line resolution inside the `items.map` of both services, which
throws on the first unresolved line; on success every requested line is
paired with its resolved menu item, in request order. -/
def buildOrderLines (menuItems : List MenuItem) : List RequestedItem →
    Except ApiError (List (RequestedItem × MenuItem))
  | [] => .ok []
  | it :: rest =>
    match menuItems.find? (fun mi => mi.id == it.menuItemId) with
    | none => .error (.badRequest ("Menu item " ++ Nat.repr it.menuItemId ++ " not found"))
    | some mi =>
      match buildOrderLines menuItems rest with
      | .error e => .error e
      | .ok l => .ok ((it, mi) :: l)

/-- Running JS total `total += Number(menuItem.price) * item.quantity`
over the resolved lines, in request order, in binary64 arithmetic. -/
def linesTotal (lines : List (RequestedItem × MenuItem)) : Q :=
  lines.foldl
    (fun acc pr => jsAdd acc (jsMul (fpRound pr.2.price) (qInt (Int.ofNat pr.1.quantity))))
    (qInt 0)

/-- Order-line rows created for an order from resolved lines. -/
def newOrderItems (oid : Nat) (lines : List (RequestedItem × MenuItem)) : List OrderItem :=
  lines.map (fun pr =>
    { orderId := oid, menuItemId := pr.1.menuItemId, quantity := pr.1.quantity,
      price := pr.2.price })

namespace OrdersService

/-- Model of `OrdersService.createOrder` (textually identical in the
status-tracking `OrderTablesService` variant): validates restaurant,
table and table ownership, resolves the requested menu items, rejects
with the missing-id list on a count mismatch, accumulates the total in
JS number arithmetic, reads the currency from `menuItems[0]` (a crash
on an empty resolved list, modelled as `internal`), and persists the
order with its lines. -/
def createOrder (db : Db) (restaurantId tableId : Nat) (items : List RequestedItem) :
    Except ApiError Order × Db :=
  match findRestaurant db restaurantId with
  | none => (.error (.notFound "Restaurant not found"), db)
  | some _ =>
    match findTable db tableId with
    | none => (.error (.notFound "Table not found"), db)
    | some table =>
      if table.restaurantId != restaurantId then
        (.error (.notFound "Table not found in this restaurant"), db)
      else
        let menuItemIds := items.map (fun it => it.menuItemId)
        let menuItems := resolveMenuItems db restaurantId menuItemIds
        if menuItems.length != menuItemIds.length then
          (.error (.badRequest (missingMessage (missingIds menuItemIds menuItems))), db)
        else
          match buildOrderLines menuItems items with
          | .error e => (.error e, db)
          | .ok lines =>
            match menuItems.head? with
            | none => (.error (.internal "TypeError"), db)
            | some first =>
              let order : Order :=
                { id := db.nextOrderId, tableId := table.id,
                  total := prismaDecimalOfNumber (linesTotal lines),
                  currency := first.currency, status := .PENDING }
              (.ok order,
                { db with
                  orders := db.orders ++ [order],
                  orderItems := db.orderItems ++ newOrderItems db.nextOrderId lines,
                  nextOrderId := db.nextOrderId + 1 })

/-- Model of `OrdersService.getOrderById` (same body in the
status-tracking variant): order must exist, its table's restaurant must
match, and its table must match.  The `include: { table }` join cannot
miss under a consistent database; a missing row is modelled as
`internal`. -/
def getOrderById (db : Db) (restaurantId tableId orderId : Nat) :
    Except ApiError Order × Db :=
  match findOrder db orderId with
  | none => (.error (.notFound "Order not found"), db)
  | some order =>
    match findTable db order.tableId with
    | none => (.error (.internal "MissingRelation"), db)
    | some t =>
      if t.restaurantId != restaurantId then
        (.error (.notFound "Order not found in this restaurant"), db)
      else if order.tableId != tableId then
        (.error (.notFound "Order not found at this table"), db)
      else (.ok order, db)

/-- Model of `OrdersService.cancelOrder` (simple variant): same
three-way validation, then hard delete of the order row (line rows
cascade). -/
def cancelOrder (db : Db) (restaurantId tableId orderId : Nat) :
    Except ApiError Order × Db :=
  match findOrder db orderId with
  | none => (.error (.notFound "Order not found"), db)
  | some order =>
    match findTable db order.tableId with
    | none => (.error (.internal "MissingRelation"), db)
    | some t =>
      if t.restaurantId != restaurantId then
        (.error (.notFound "Order not found in this restaurant"), db)
      else if order.tableId != tableId then
        (.error (.notFound "Order not found at this table"), db)
      else
        (.ok order,
          { db with
            orders := db.orders.filter (fun o => o.id != orderId),
            orderItems := db.orderItems.filter (fun oi => oi.orderId != orderId) })

/-- Model of `OrdersService.addItemsToOrder` (simple variant, no status
guard): validates the order/table/restaurant chain, resolves the new
items, rejects with the missing-id list on a count mismatch, persists
the new line rows, and stores `Number(order.total) + additionalTotal`
(binary64) as the new total. -/
def addItemsToOrder (db : Db) (restaurantId tableId orderId : Nat)
    (items : List RequestedItem) : Except ApiError Order × Db :=
  match findOrder db orderId with
  | none => (.error (.notFound "Order not found"), db)
  | some order =>
    match findTable db order.tableId with
    | none => (.error (.internal "MissingRelation"), db)
    | some t =>
      if t.restaurantId != restaurantId then
        (.error (.notFound "Order not found in this restaurant"), db)
      else if order.tableId != tableId then
        (.error (.notFound "Order not found at this table"), db)
      else
        let menuItemIds := items.map (fun it => it.menuItemId)
        let menuItems := resolveMenuItems db restaurantId menuItemIds
        if menuItems.length != menuItemIds.length then
          (.error (.badRequest (missingMessage (missingIds menuItemIds menuItems))), db)
        else
          match buildOrderLines menuItems items with
          | .error e => (.error e, db)
          | .ok lines =>
            let newTotal := jsAdd (fpRound order.total) (linesTotal lines)
            let updated : Order := { order with total := prismaDecimalOfNumber newTotal }
            (.ok updated,
              { db with
                orders := db.orders.map (fun o => if o.id == orderId then updated else o),
                orderItems := db.orderItems ++ newOrderItems orderId lines })

end OrdersService

namespace OrderTablesService

/-- Model of `OrderTablesService.updateOrderStatus`: three-way
validation, then an unconditional status write (no transition table). -/
def updateOrderStatus (db : Db) (restaurantId tableId orderId : Nat)
    (status : OrderStatus) : Except ApiError Order × Db :=
  match findOrder db orderId with
  | none => (.error (.notFound "Order not found"), db)
  | some order =>
    match findTable db order.tableId with
    | none => (.error (.internal "MissingRelation"), db)
    | some t =>
      if t.restaurantId != restaurantId then
        (.error (.notFound "Order not found in this restaurant"), db)
      else if order.tableId != tableId then
        (.error (.notFound "Order not found at this table"), db)
      else
        let updated : Order := { order with status := status }
        (.ok updated,
          { db with
            orders := db.orders.map (fun o => if o.id == orderId then updated else o) })

/-- Model of `OrderTablesService.cancelOrder` (status-tracking
variant): delegates to `updateOrderStatus` with `CANCELLED`. -/
def cancelOrder (db : Db) (restaurantId tableId orderId : Nat) :
    Except ApiError Order × Db :=
  updateOrderStatus db restaurantId tableId orderId .CANCELLED

/-- Model of `OrderTablesService.addItemsToOrder`: like the simple
variant but refuses to touch a COMPLETED or CANCELLED order before
resolving any items. -/
def addItemsToOrder (db : Db) (restaurantId tableId orderId : Nat)
    (items : List RequestedItem) : Except ApiError Order × Db :=
  match findOrder db orderId with
  | none => (.error (.notFound "Order not found"), db)
  | some order =>
    match findTable db order.tableId with
    | none => (.error (.internal "MissingRelation"), db)
    | some t =>
      if t.restaurantId != restaurantId then
        (.error (.notFound "Order not found in this restaurant"), db)
      else if order.tableId != tableId then
        (.error (.notFound "Order not found at this table"), db)
      else if order.status == .COMPLETED || order.status == .CANCELLED then
        (.error (.badRequest "Cannot add items to completed or cancelled order"), db)
      else
        let menuItemIds := items.map (fun it => it.menuItemId)
        let menuItems := resolveMenuItems db restaurantId menuItemIds
        if menuItems.length != menuItemIds.length then
          (.error (.badRequest (missingMessage (missingIds menuItemIds menuItems))), db)
        else
          match buildOrderLines menuItems items with
          | .error e => (.error e, db)
          | .ok lines =>
            let newTotal := jsAdd (fpRound order.total) (linesTotal lines)
            let updated : Order := { order with total := prismaDecimalOfNumber newTotal }
            (.ok updated,
              { db with
                orders := db.orders.map (fun o => if o.id == orderId then updated else o),
                orderItems := db.orderItems ++ newOrderItems orderId lines })

end OrderTablesService

namespace TablesService

/-- Shape returned per table by `getTablesByRestaurant` (occupancy
derived from the `_count.orders` aggregate). -/
structure TableWithStatus where
  id : Nat
  tableNumber : Nat
  restaurantId : Nat
  isOccupied : Bool
  activeOrdersCount : Nat
deriving DecidableEq

/-- Insertion into a list kept sorted by table number (stable). -/
def insertByNumber (t : Table) : List Table → List Table
  | [] => [t]
  | u :: us => if t.tableNumber ≤ u.tableNumber then t :: u :: us
               else u :: insertByNumber t us

/-- Model of the `orderBy: { tableNumber: 'asc' }` clause. -/
def sortByNumber (l : List Table) : List Table := l.foldr insertByNumber []

/-- Rows of a restaurant's tables. -/
def tablesOf (db : Db) (rid : Nat) : List Table :=
  db.tables.filter (fun t => t.restaurantId == rid)

/-- Fresh table rows generated for a restaurant:
`Array.from({length: numberOfTables}, (_, i) => ({tableNumber: i + 1}))`
with auto-increment ids. -/
def generatedTables (db : Db) (rid n : Nat) : List Table :=
  (List.range n).map (fun i =>
    { id := db.nextTableId + i, tableNumber := i + 1, restaurantId := rid })

/-- Model of `generateTablesForRestaurant`: requires the restaurant,
returns the existing tables untouched when any exist, otherwise bulk
creates `numberOfTables` rows numbered from one and re-reads them
sorted. -/
def generateTablesForRestaurant (db : Db) (rid : Nat) :
    Except ApiError (List Table) × Db :=
  match findRestaurant db rid with
  | none => (.error (.notFound "Restaurant not found"), db)
  | some r =>
    let existing := tablesOf db rid
    if existing.length > 0 then (.ok existing, db)
    else
      let created := generatedTables db rid r.numberOfTables
      let db' := { db with
        tables := db.tables ++ created,
        nextTableId := db.nextTableId + r.numberOfTables }
      (.ok (sortByNumber (tablesOf db' rid)), db')

/-- Occupancy projection of a table row:
`isOccupied := table._count.orders > 0`. -/
def withStatus (db : Db) (t : Table) : TableWithStatus :=
  let c := (db.orders.filter (fun o => o.tableId == t.id)).length
  { id := t.id, tableNumber := t.tableNumber, restaurantId := t.restaurantId,
    isOccupied := decide (0 < c), activeOrdersCount := c }

/-- Model of `TablesService.getTablesByRestaurant`: requires the
restaurant; reads its tables sorted by number; when none exist it runs
the lazy generation once and re-reads; returns the restaurant name and
the occupancy projection of each table. -/
def getTablesByRestaurant (db : Db) (rid : Nat) :
    Except ApiError (String × List TableWithStatus) × Db :=
  match findRestaurant db rid with
  | none => (.error (.notFound "Restaurant not found"), db)
  | some r =>
    let tables := sortByNumber (tablesOf db rid)
    if tables.length == 0 then
      match generateTablesForRestaurant db rid with
      | (.error e, db') => (.error e, db')
      | (.ok _, db') =>
        let tables' := sortByNumber (tablesOf db' rid)
        (.ok (r.name, tables'.map (withStatus db')), db')
    else
      (.ok (r.name, tables.map (withStatus db)), db)

end TablesService

/-! ## CSV menu replacement engine -/

/-- Parsed CSV row as produced by `csv-parser` into the `CsvRow`
interface.  The three trailing fields are optional columns; a column
present in the header but empty in a row arrives as `some ""`. -/
structure CsvRow where
  name : String
  description : String
  price : String
  currency : String
  category : String
  tags : Option String
  allergens : Option String
  isAvailable : Option String
deriving DecidableEq

/-- Single-quote character as a string (used in validation messages). -/
def sq : String := String.mk [Char.ofNat 39]

/-- Message prefix `Row {n}: ` of every validation error. -/
def rowPrefix (n : Nat) : String := "Row " ++ Nat.repr n ++ ": "

/-- Model of JS `String.prototype.split(',')`. -/
def splitCommaAux : List Char → List Char → List String
  | [], cur => [String.mk cur.reverse]
  | c :: cs, cur =>
    if c = ',' then String.mk cur.reverse :: splitCommaAux cs []
    else splitCommaAux cs (c :: cur)

/-- Model of JS `String.prototype.split(',')` on a string. -/
def splitComma (s : String) : List String := splitCommaAux s.data []

/-- Availability parsing of the import:
`row.isAvailable ? ['true','1','yes','available'].includes(row.isAvailable.toLowerCase().trim()) : true`.
JS truthiness makes both an absent field and an empty string take the
default `true` branch. -/
def parseAvailability (v : Option String) : Bool :=
  match v with
  | some s =>
    if s != "" then ["true", "1", "yes", "available"].contains (jsTrim (jsToLower s))
    else true
  | none => true

/-- Model of the JS idiom `v ? v.split(',') : []` used for the `tags`
and `allergens` columns (absent or empty string are both falsy). -/
def splitTags (v : Option String) : List String :=
  match v with
  | some t => if t != "" then splitComma t else []
  | none => []

/-- Category cache key `${restaurantId}_${categoryName}`. -/
def cacheKey (rid : Nat) (name : String) : String :=
  Nat.repr rid ++ "_" ++ name

/-- Validation errors produced for one row (`rowNumber = index + 2`),
in the order the source pushes them. -/
def validateRow (idx : Nat) (row : CsvRow) : List String :=
  let n := idx + 2
  (if jsTrim row.name == "" then [rowPrefix n ++ sq ++ "name" ++ sq ++ " is required"] else []) ++
  (if jsTrim row.category == "" then [rowPrefix n ++ sq ++ "category" ++ sq ++ " is required"] else []) ++
  (if jsTrim row.price == "" then [rowPrefix n ++ sq ++ "price" ++ sq ++ " is required"]
   else
     match parseFloatQ row.price with
     | none =>
       [rowPrefix n ++ sq ++ "price" ++ sq ++ " must be a valid number (found: \"" ++ row.price ++ "\")"]
     | some p =>
       if qIsNeg (fpRound p) then [rowPrefix n ++ sq ++ "price" ++ sq ++ " must be a positive number"]
       else []) ++
  (if row.currency != "" && jsTrim row.currency == "" then
    [rowPrefix n ++ sq ++ "currency" ++ sq ++ " cannot be empty if provided"] else []) ++
  (if row.description != "" && row.description.length > 500 then
    [rowPrefix n ++ sq ++ "description" ++ sq ++ " is too long (max 500 characters)"] else [])

/-- Model of `validateCsvData`: rejects an empty sheet, otherwise
collects every row's validation errors and fails with the full list if
any exist. -/
def validateCsvData (rows : List CsvRow) : Except ApiError Unit :=
  if rows.length == 0 then
    .error (.badRequest "CSV file is empty or contains no valid data")
  else
    let errors := (rows.enum.map (fun p => validateRow p.1 p.2)).flatten
    if errors.length > 0 then .error (.badRequestList "CSV validation failed" errors)
    else .ok ()

namespace RestaurantService

/-- One pass of the recreation loop inside the transaction: resolve or
create the row's category (keyed by `${restaurantId}_${categoryName}`
in the per-call cache, falling back to a `findFirst` on the database),
then insert the menu item row built from the CSV row. -/
def processRow (rid : Nat) (st : Db × List (String × MenuCategory)) (row : CsvRow) :
    Db × List (String × MenuCategory) :=
  let db := st.1
  let cache := st.2
  let categoryName := jsTrim row.category
  let key := cacheKey rid categoryName
  let next : MenuCategory × Db × List (String × MenuCategory) :=
    match cache.find? (fun p => p.1 == key) with
    | some p => (p.2, db, cache)
    | none =>
      match db.categories.find? (fun c => c.name == categoryName && c.restaurantId == rid) with
      | some c => (c, db, cache ++ [(key, c)])
      | none =>
        let c : MenuCategory :=
          { id := db.nextCategoryId, name := categoryName, restaurantId := rid }
        (c,
          { db with categories := db.categories ++ [c],
                    nextCategoryId := db.nextCategoryId + 1 },
          cache ++ [(key, c)])
  let cat := next.1
  let db1 := next.2.1
  let price : Q := match parseFloatQ row.price with
    | some p => fpRound p
    | none => qInt 0
  let item : MenuItem :=
    { id := db1.nextMenuItemId, name := row.name, description := row.description,
      price := prismaDecimalOfNumber price,
      currency := if row.currency != "" then row.currency else "MDL",
      tags := splitTags row.tags,
      allergens := splitTags row.allergens,
      isAvailable := parseAvailability row.isAvailable,
      categoryId := cat.id }
  ({ db1 with menuItems := db1.menuItems ++ [item],
              nextMenuItemId := db1.nextMenuItemId + 1 },
    next.2.2)

/-- Model of `uploadNewRestaurantMenu`: ownership checks, full CSV
validation before any mutation, then one transaction that deletes the
restaurant's menu items and categories and recreates them from the
rows (the `price: parseFloat(...)` default branch of `processRow` is
unreachable here because validation rejected NaN prices). -/
def uploadNewRestaurantMenu (db : Db) (rid ownerId : Nat) (rows : List CsvRow) :
    Except ApiError Unit × Db :=
  match findRestaurant db rid with
  | none => (.error (.notFound "Restaurant not found"), db)
  | some r =>
    if r.ownerId != ownerId then
      (.error (.forbidden "You do not have permission to upload menu for this restaurant"), db)
    else
      match validateCsvData rows with
      | .error e => (.error e, db)
      | .ok _ =>
        let db0 := { db with
          menuItems := db.menuItems.filter (fun mi => !(itemInRestaurant db rid mi)),
          categories := db.categories.filter (fun c => c.restaurantId != rid) }
        let final := rows.foldl (processRow rid) (db0, [])
        (.ok (), final.1)

end RestaurantService

/-! ## Predicates and database well-formedness -/

/-- Whether the restaurant row exists. -/
def restaurantExists (db : Db) (rid : Nat) : Bool :=
  (findRestaurant db rid).isSome

/-- Whether the table exists and belongs to the restaurant. -/
def tableBelongs (db : Db) (rid tid : Nat) : Bool :=
  match findTable db tid with
  | some t => t.restaurantId == rid
  | none => false

/-- Whether the order exists, sits at the given table, and that table
belongs to the given restaurant. -/
def orderMatches (db : Db) (rid tid oid : Nat) : Bool :=
  match findOrder db oid with
  | none => false
  | some o =>
    o.tableId == tid &&
    (match findTable db o.tableId with
     | some t => t.restaurantId == rid
     | none => false)

/-- Whether a requested menu item id resolves for the restaurant:
a row with that id exists, its category belongs to the restaurant, and
it is available. -/
def resolvableB (db : Db) (rid i : Nat) : Bool :=
  db.menuItems.any (fun mi => mi.id == i && itemInRestaurant db rid mi && mi.isAvailable)

/-- Whether a result is a `NotFound` failure. -/
def isNotFound {α : Type} (r : Except ApiError α) : Bool :=
  match r with
  | .error (.notFound _) => true
  | _ => false

/-- Total of a successful result, if any. -/
def createdTotal? (r : Except ApiError Order) : Option Q :=
  match r with
  | .ok o => some o.total
  | .error _ => none

/-- Referential and key invariants every reachable database satisfies
(primary keys unique and below the auto-increment counters; foreign
keys resolve). -/
structure WF (db : Db) : Prop where
  menuItemIdsNodup : (db.menuItems.map (fun mi => mi.id)).Nodup
  categoryIdsNodup : (db.categories.map (fun c => c.id)).Nodup
  ordersRefTables : ∀ o ∈ db.orders, (findTable db o.tableId).isSome
  tablesRefRestaurants : ∀ t ∈ db.tables, (findRestaurant db t.restaurantId).isSome
  itemIdsLt : ∀ mi ∈ db.menuItems, mi.id < db.nextMenuItemId
  categoryIdsLt : ∀ c ∈ db.categories, c.id < db.nextCategoryId
  itemsRefCategories : ∀ mi ∈ db.menuItems, (findCategory db mi.categoryId).isSome

/-- Name of a menu item's category (empty when the reference dangles). -/
def catNameOf (db : Db) (mi : MenuItem) : String :=
  match findCategory db mi.categoryId with
  | some c => c.name
  | none => ""

/-- Observable projection of a menu item row, category name included. -/
def itemProj (db : Db) (mi : MenuItem) :
    String × String × Q × String × Bool × List String × List String × String :=
  (mi.name, mi.description, mi.price, mi.currency, mi.isAvailable, mi.tags,
    mi.allergens, catNameOf db mi)

/-- Price stored for a CSV row: the `parseFloat` result is a JS number
and the `Decimal` column stores its shortest-round-trip decimal. -/
def rowPrice (row : CsvRow) : Q :=
  prismaDecimalOfNumber
    (match parseFloatQ row.price with
     | some p => fpRound p
     | none => qInt 0)

/-- Projection a CSV row is expected to produce as a menu item. -/
def rowProj (row : CsvRow) :
    String × String × Q × String × Bool × List String × List String × String :=
  (row.name, row.description, rowPrice row,
    (if row.currency != "" then row.currency else "MDL"),
    parseAvailability row.isAvailable, splitTags row.tags, splitTags row.allergens,
    jsTrim row.category)

/-- Database state right after the lazy table generation for a
restaurant with `n` configured tables (used to state the C7 facts). -/
def dbAfterGen (db : Db) (rid n : Nat) : Db :=
  { db with tables := db.tables ++ TablesService.generatedTables db rid n,
            nextTableId := db.nextTableId + n }

/-- Categories of a restaurant. -/
def catsR (db : Db) (rid : Nat) : List MenuCategory :=
  db.categories.filter (fun c => c.restaurantId == rid)

/-- Names of a restaurant's categories. -/
def namesR (db : Db) (rid : Nat) : List String :=
  (catsR db rid).map (fun c => c.name)

/-- Observable projection of an entire restaurant menu. -/
def projR (db : Db) (rid : Nat) :
    List (String × String × Q × String × Bool × List String × List String × String) :=
  (db.menuItems.filter (fun mi => itemInRestaurant db rid mi)).map (fun mi => itemProj db mi)

/-- Invariant of the menu-recreation loop state: the cache mirrors the
restaurant's categories (keyed), category primary keys are unique and
below the counter, every item's category reference resolves, and the
restaurant's category names are distinct. -/
def ReplaceInv (rid : Nat) (st : Db × List (String × MenuCategory)) : Prop :=
  st.2 = (catsR st.1 rid).map (fun c => (cacheKey rid c.name, c)) ∧
  (st.1.categories.map (fun c => c.id)).Nodup ∧
  (∀ c ∈ st.1.categories, c.id < st.1.nextCategoryId) ∧
  (∀ mi ∈ st.1.menuItems, (findCategory st.1 mi.categoryId).isSome) ∧
  (namesR st.1 rid).Nodup

/-- Concrete database used by the closed counterexamples and witnesses:
two restaurants, tables and menus, pre-existing orders in several
states. -/
def sampleDb : Db :=
  { restaurants := [⟨1, 10, 2, "The Italian Corner"⟩, ⟨2, 11, 1, "Other Place"⟩,
      ⟨3, 12, 2, "Fresh Start"⟩],
    tables := [⟨5, 1, 1⟩, ⟨6, 2, 1⟩, ⟨7, 1, 2⟩],
    categories := [⟨1, "Pizza", 1⟩, ⟨2, "Mains", 2⟩],
    menuItems :=
      [⟨1, "Margherita Pizza", "Classic", ⟨1299, 100⟩, "USD", true, [], [], 1⟩,
       ⟨2, "Dime", "", ⟨10, 100⟩, "USD", true, [], [], 1⟩,
       ⟨3, "Twenty", "", ⟨20, 100⟩, "USD", true, [], [], 1⟩,
       ⟨4, "Thirty", "", ⟨30, 100⟩, "USD", true, [], [], 1⟩,
       ⟨5, "Sold Out Soup", "", ⟨500, 100⟩, "USD", false, [], [], 1⟩,
       ⟨6, "Pasta One", "", ⟨1299, 100⟩, "USD", true, [], [], 1⟩,
       ⟨7, "Pasta Two", "", ⟨1299, 100⟩, "USD", true, [], [], 1⟩,
       ⟨8, "Pasta Three", "", ⟨1299, 100⟩, "USD", true, [], [], 1⟩,
       ⟨9, "Foreign Dish", "", ⟨700, 100⟩, "MDL", true, [], [], 2⟩],
    orders :=
      [⟨100, 5, ⟨10, 100⟩, "USD", .PENDING⟩,
       ⟨200, 5, ⟨2598, 100⟩, "USD", .COMPLETED⟩,
       ⟨300, 7, ⟨500, 100⟩, "MDL", .PENDING⟩],
    orderItems := [],
    nextTableId := 8, nextCategoryId := 3, nextMenuItemId := 10, nextOrderId := 301 }

/-- State of the database right after the transaction's delete phase:
the restaurant's menu items and categories are removed. -/
def menuClearedDb (db : Db) (rid : Nat) : Db :=
  { db with menuItems := db.menuItems.filter (fun mi => !(itemInRestaurant db rid mi)),
            categories := db.categories.filter (fun c => c.restaurantId != rid) }

/-- All validation errors collected over the sheet, in row order. -/
def csvErrors (rows : List CsvRow) : List String :=
  (rows.enum.map (fun p => validateRow p.1 p.2)).flatten

/-- Sample CSV sheet used by the closed witness: two rows sharing one
category. -/
def csvSampleRows : List CsvRow :=
  [⟨"Pizza A", "", "9.99", "", "Pasta", none, none, none⟩,
   ⟨"Pizza B", "", "5", "USD", "Pasta", none, none, some "yes"⟩]

/-! ## Resolution lemmas -/

theorem foundIds_sublist (db : Db) (rid : Nat) (ids : List Nat) :
    ((resolveMenuItems db rid ids).map (fun mi => mi.id)).Sublist
      (db.menuItems.map (fun mi => mi.id)) :=
  (List.filter_sublist _).map _

theorem foundIds_nodup (db : Db) (rid : Nat) (ids : List Nat) (h : WF db) :
    ((resolveMenuItems db rid ids).map (fun mi => mi.id)).Nodup :=
  h.menuItemIdsNodup.sublist (foundIds_sublist db rid ids)

theorem mem_foundIds (db : Db) (rid : Nat) (ids : List Nat) (i : Nat) :
    i ∈ (resolveMenuItems db rid ids).map (fun mi => mi.id) ↔
      i ∈ ids ∧ resolvableB db rid i = true := by
  constructor
  · intro hmem
    rcases List.mem_map.mp hmem with ⟨mi, hmi, rfl⟩
    rcases List.mem_filter.mp hmi with ⟨hdb, hcond⟩
    rcases Bool.and_eq_true_iff.mp hcond with ⟨hin2, hav⟩
    rcases Bool.and_eq_true_iff.mp hin2 with ⟨hin, hown⟩
    refine ⟨?_, ?_⟩
    · have : mi.id ∈ ids := by
        simpa [List.contains, List.elem_eq_mem] using hin
      exact this
    · exact List.any_eq_true.mpr ⟨mi, hdb, by simp [hav, hown]⟩
  · rintro ⟨hin, hres⟩
    rcases List.any_eq_true.mp hres with ⟨mi, hdb, hcond⟩
    rcases Bool.and_eq_true_iff.mp hcond with ⟨hid2, hav⟩
    rcases Bool.and_eq_true_iff.mp hid2 with ⟨hid, hown⟩
    have hide : mi.id = i := by simpa using hid
    refine List.mem_map.mpr ⟨mi, List.mem_filter.mpr ⟨hdb, ?_⟩, hide⟩
    have hcont : ids.contains mi.id = true := by
      simp [List.contains, List.elem_eq_mem, hide, hin]
    rw [hcont, hown, hav]
    rfl

theorem resolve_length_lt_of_missing (db : Db) (rid : Nat) (ids : List Nat)
    (h : WF db) (i : Nat) (hm : i ∈ ids) (hnr : resolvableB db rid i = false) :
    (resolveMenuItems db rid ids).length < ids.length := by
  set found := (resolveMenuItems db rid ids).map (fun mi => mi.id) with hfound
  have hnod : found.Nodup := foundIds_nodup db rid ids h
  have hsub : found.toFinset ⊆ ids.toFinset.erase i := by
    intro j hj
    rw [List.mem_toFinset] at hj
    rw [mem_foundIds] at hj
    rw [Finset.mem_erase, List.mem_toFinset]
    refine ⟨?_, hj.1⟩
    intro hji
    rw [hji] at hj
    exact Bool.noConfusion (hj.2.symm.trans hnr)
  have h1 : found.length = found.toFinset.card := by
    rw [List.toFinset_card_of_nodup hnod]
  have h2 : found.toFinset.card ≤ (ids.toFinset.erase i).card :=
    Finset.card_le_card hsub
  have h3 : (ids.toFinset.erase i).card < ids.toFinset.card :=
    Finset.card_erase_lt_of_mem (List.mem_toFinset.mpr hm)
  have h4 : ids.toFinset.card ≤ ids.length := ids.toFinset_card_le
  have h5 : (resolveMenuItems db rid ids).length = found.length := by
    rw [hfound, List.length_map]
  omega

theorem resolve_length_lt_of_dup (db : Db) (rid : Nat) (ids : List Nat)
    (h : WF db) (hdup : ¬ ids.Nodup)
    (hall : ∀ i ∈ ids, resolvableB db rid i = true) :
    (resolveMenuItems db rid ids).length < ids.length := by
  set found := (resolveMenuItems db rid ids).map (fun mi => mi.id) with hfound
  have hnod : found.Nodup := foundIds_nodup db rid ids h
  have hset : found.toFinset = ids.toFinset := by
    apply Finset.Subset.antisymm
    · intro j hj
      rw [List.mem_toFinset] at hj ⊢
      exact (mem_foundIds db rid ids j |>.mp hj).1
    · intro j hj
      rw [List.mem_toFinset] at hj ⊢
      exact (mem_foundIds db rid ids j).mpr ⟨hj, hall j hj⟩
  have h1 : found.length = found.toFinset.card := by
    rw [List.toFinset_card_of_nodup hnod]
  have h1b : found.toFinset.card = ids.toFinset.card := by rw [hset]
  have h2 : ids.toFinset.card = ids.dedup.length := List.card_toFinset ids
  have h3 : ids.dedup.length < ids.length := by
    rcases Nat.lt_or_ge ids.dedup.length ids.length with hlt | hge
    · exact hlt
    · exfalso
      have hsl : ids.dedup.Sublist ids := ids.dedup_sublist
      have hle : ids.dedup.length ≤ ids.length := hsl.length_le
      have heq : ids.dedup = ids := hsl.eq_of_length (Nat.le_antisymm hle hge)
      exact hdup (heq ▸ ids.nodup_dedup)
  have h5 : (resolveMenuItems db rid ids).length = found.length := by
    rw [hfound, List.length_map]
  omega

theorem missingIds_eq_filter (db : Db) (rid : Nat) (ids : List Nat) :
    missingIds ids (resolveMenuItems db rid ids) =
      ids.filter (fun i => !resolvableB db rid i) := by
  unfold missingIds
  apply List.filter_congr
  intro i hi
  have hmem := mem_foundIds db rid ids i
  cases hres : resolvableB db rid i with
  | false =>
    have hni : i ∉ (resolveMenuItems db rid ids).map (fun mi => mi.id) := by
      intro hc
      exact Bool.noConfusion ((hmem.mp hc).2.symm.trans hres)
    simp [List.contains, List.elem_eq_mem, hni]
  | true =>
    have hyi : i ∈ (resolveMenuItems db rid ids).map (fun mi => mi.id) :=
      hmem.mpr ⟨hi, hres⟩
    simp [List.contains, List.elem_eq_mem, hyi]

theorem sampleDb_wf : WF sampleDb :=
  ⟨by decide, by decide, by decide, by decide, by decide, by decide, by decide⟩

theorem resolveMenuItems_nil (db : Db) (rid : Nat) : resolveMenuItems db rid [] = [] := by
  simp [resolveMenuItems]

theorem find?_append_some {α : Type} (l₁ l₂ : List α) (p : α → Bool) (a : α)
    (h : l₁.find? p = some a) : (l₁ ++ l₂).find? p = some a := by
  induction l₁ with
  | nil => exact absurd h (by simp)
  | cons x xs ih =>
    rw [List.cons_append]
    cases hx : p x with
    | true => simp only [List.find?_cons, hx] at h ⊢; exact h
    | false => simp only [List.find?_cons, hx] at h ⊢; exact ih h

theorem find?_append_none {α : Type} (l₁ l₂ : List α) (p : α → Bool)
    (h : l₁.find? p = none) : (l₁ ++ l₂).find? p = l₂.find? p := by
  induction l₁ with
  | nil => rfl
  | cons x xs ih =>
    rw [List.cons_append]
    cases hx : p x with
    | true => simp only [List.find?_cons, hx] at h; exact Option.noConfusion h
    | false => simp only [List.find?_cons, hx] at h ⊢; exact ih h

theorem string_append_data (a b : String) : (a ++ b).data = a.data ++ b.data := rfl

theorem string_append_cancel_left (x a b : String) (h : x ++ a = x ++ b) : a = b := by
  have hd : (x ++ a).data = (x ++ b).data := congrArg String.data h
  rw [string_append_data, string_append_data] at hd
  have hab : a.data = b.data := List.append_cancel_left hd
  cases a
  cases b
  exact congrArg String.mk (by simpa using hab)

theorem cacheKey_inj (rid : Nat) (a b : String) (h : cacheKey rid a = cacheKey rid b) :
    a = b := by
  unfold cacheKey at h
  exact string_append_cancel_left _ _ _ h

theorem find?_id_unique (l : List MenuCategory) (c : MenuCategory)
    (hN : (l.map (fun x => x.id)).Nodup) (hc : c ∈ l) :
    l.find? (fun x => x.id == c.id) = some c := by
  induction l with
  | nil => cases hc
  | cons d ds ih =>
    rw [List.map_cons] at hN
    rcases List.mem_cons.mp hc with rfl | hc'
    · simp [List.find?_cons]
    · have hd : d.id ≠ c.id := by
        intro he
        have hmem : c.id ∈ ds.map (fun x => x.id) := List.mem_map.mpr ⟨c, hc', rfl⟩
        exact (List.nodup_cons.mp hN).1 (he ▸ hmem)
      have hpd : (d.id == c.id) = false := beq_eq_false_iff_ne.mpr hd
      simp only [List.find?_cons, hpd]
      exact ih (List.nodup_cons.mp hN).2 hc'

theorem mem_id_unique (l : List MenuCategory) (hN : (l.map (fun x => x.id)).Nodup)
    (a b : MenuCategory) (ha : a ∈ l) (hb : b ∈ l) (hid : a.id = b.id) : a = b :=
  List.inj_on_of_nodup_map hN ha hb hid

theorem findCategory_append (db db' : Db) (newCats : List MenuCategory)
    (hcats : db'.categories = db.categories ++ newCats) (cid : Nat)
    (h : (findCategory db cid).isSome) : findCategory db' cid = findCategory db cid := by
  unfold findCategory at h ⊢
  rw [hcats]
  cases hf : db.categories.find? (fun c => c.id == cid) with
  | none => rw [hf] at h; exact Bool.noConfusion h
  | some c => exact find?_append_some _ _ _ _ hf

theorem itemInRestaurant_stable (db db' : Db) (rid : Nat) (newCats : List MenuCategory)
    (hcats : db'.categories = db.categories ++ newCats) (mi : MenuItem)
    (h : (findCategory db mi.categoryId).isSome) :
    itemInRestaurant db' rid mi = itemInRestaurant db rid mi := by
  unfold itemInRestaurant
  rw [findCategory_append db db' newCats hcats _ h]

theorem itemProj_stable (db db' : Db) (newCats : List MenuCategory)
    (hcats : db'.categories = db.categories ++ newCats) (mi : MenuItem)
    (h : (findCategory db mi.categoryId).isSome) :
    itemProj db' mi = itemProj db mi := by
  unfold itemProj catNameOf
  rw [findCategory_append db db' newCats hcats _ h]

theorem projR_filter_stable (db db' : Db) (rid : Nat) (newCats : List MenuCategory)
    (hcats : db'.categories = db.categories ++ newCats)
    (href : ∀ mi ∈ db.menuItems, (findCategory db mi.categoryId).isSome) :
    (db.menuItems.filter (fun mi => itemInRestaurant db' rid mi)).map
        (fun mi => itemProj db' mi) =
      (db.menuItems.filter (fun mi => itemInRestaurant db rid mi)).map
        (fun mi => itemProj db mi) := by
  rw [List.filter_congr
    (fun mi hmi => itemInRestaurant_stable db db' rid newCats hcats mi (href mi hmi))]
  apply List.map_congr_left
  intro mi hmi
  exact itemProj_stable db db' newCats hcats mi (href mi (List.mem_filter.mp hmi).1)

/-! ## Claim theorems -/

/-- C1, counterexample.  The claim says every valid `createOrder`
persists a total equal to `Σ resolvedPrice_i * quantity_i` computed in
exact decimal arithmetic.  At the valid request for one $0.10 line and
one $0.20 line (restaurant 1, table 5 of `sampleDb`), the exact decimal
sum is 0.30, yet the persisted total is the binary64 artefact
0.30000000000000004, because the service computes
`Number(price) * quantity` sums in JS floating point. -/
theorem createOrder_exact_decimal_total_cex :
    qEq (qAdd (qMul (Q.mk 10 100) (qInt 1)) (qMul (Q.mk 20 100) (qInt 1))) (Q.mk 3 10) = true ∧
    ((createdTotal? (OrdersService.createOrder sampleDb 1 5 [⟨2, 1⟩, ⟨3, 1⟩]).1).map
      (fun t => (qEq t (Q.mk 3 10), qEq t (Q.mk 30000000000000004 100000000000000000)))) =
      some (false, true) := by
  constructor
  · decide
  · decide

/-- C1, amended.  `createOrder` persists the binary64 (JS `number`)
evaluation of `Σ resolvedPrice_i * quantity_i`, converted to a decimal
through the shortest-round-trip string.  On the spec's own example
(three lines of $12.99 × 2) the float evaluation coincides with the
exact decimal sum 77.94, but on $0.10 + $0.20 it persists
0.30000000000000004 instead of 0.30. -/
theorem createOrder_binary64_total :
    ((createdTotal? (OrdersService.createOrder sampleDb 1 5 [⟨6, 2⟩, ⟨7, 2⟩, ⟨8, 2⟩]).1).map
      (fun t => qEq t (Q.mk 7794 100))) = some true ∧
    ((createdTotal? (OrdersService.createOrder sampleDb 1 5 [⟨2, 1⟩, ⟨3, 1⟩]).1).map
      (fun t => qEq t (Q.mk 30000000000000004 100000000000000000))) = some true := by
  constructor
  · decide
  · decide

/-- C9.  With a valid restaurant and table, `createOrder` with an empty
items list passes every validation step (the empty id set trivially
resolves to an empty list of equal length, so neither NotFound nor
BadRequest fires) and then evaluates `menuItems[0].currency` on the
empty resolved array, an out-of-bounds access: the call ends in an
uncaught `TypeError` (modelled `internal`), not a typed error, and
nothing is persisted. -/
theorem createOrder_empty_items_crash (db : Db) (rid tid : Nat)
    (hr : restaurantExists db rid = true) (ht : tableBelongs db rid tid = true) :
    OrdersService.createOrder db rid tid [] = (.error (.internal "TypeError"), db) := by
  unfold OrdersService.createOrder
  cases hfr : findRestaurant db rid with
  | none => rw [restaurantExists, hfr] at hr; exact Bool.noConfusion hr
  | some r =>
    cases hft : findTable db tid with
    | none => rw [tableBelongs, hft] at ht; exact Bool.noConfusion ht
    | some t =>
      have htr : (t.restaurantId == rid) = true := by
        rw [tableBelongs, hft] at ht; exact ht
      simp [resolveMenuItems_nil, bne, htr, buildOrderLines]

/-- C9, witness at restaurant 1 / table 5 of `sampleDb`. -/
theorem createOrder_empty_items_crash_witness :
    OrdersService.createOrder sampleDb 1 5 [] = (.error (.internal "TypeError"), sampleDb) :=
  createOrder_empty_items_crash sampleDb 1 5 (by decide) (by decide)

/-- C6.  In the status-tracking variant, `addItemsToOrder` on an order
whose current status is COMPLETED or CANCELLED fails with the
BadRequest guard message and leaves the database untouched: no
OrderItems are persisted and the stored total is unchanged. -/
theorem addItems_terminal_badRequest (db : Db) (rid tid oid : Nat)
    (items : List RequestedItem) (o : Order)
    (hfo : findOrder db oid = some o)
    (ho : orderMatches db rid tid oid = true)
    (hst : o.status = .COMPLETED ∨ o.status = .CANCELLED) :
    OrderTablesService.addItemsToOrder db rid tid oid items =
      (.error (.badRequest "Cannot add items to completed or cancelled order"), db) := by
  rw [orderMatches, hfo] at ho
  rcases Bool.and_eq_true_iff.mp ho with ⟨htid, hrest⟩
  cases hftb : findTable db o.tableId with
  | none => rw [hftb] at hrest; exact Bool.noConfusion hrest
  | some t =>
    rw [hftb] at hrest
    have hrt : (t.restaurantId == rid) = true := hrest
    have hstb : (o.status == OrderStatus.COMPLETED || o.status == OrderStatus.CANCELLED) = true := by
      rcases hst with h | h <;> simp [h]
    unfold OrderTablesService.addItemsToOrder
    simp only [hfo, hftb]
    simp [bne, hrt, htid, hstb]

/-- C6, witness: order 200 of `sampleDb` is COMPLETED at table 5 of
restaurant 1. -/
theorem addItems_terminal_badRequest_witness :
    OrderTablesService.addItemsToOrder sampleDb 1 5 200 [⟨2, 1⟩] =
      (.error (.badRequest "Cannot add items to completed or cancelled order"), sampleDb) :=
  addItems_terminal_badRequest sampleDb 1 5 200 [⟨2, 1⟩]
    ⟨200, 5, ⟨2598, 100⟩, "USD", .COMPLETED⟩ (by decide) (by decide) (Or.inl rfl)

theorem order_guard (db : Db) (rid tid oid : Nat) (hwf : WF db)
    (h : restaurantExists db rid = false ∨ tableBelongs db rid tid = false ∨
      orderMatches db rid tid oid = false) :
    findOrder db oid = none ∨
    (∃ o t, findOrder db oid = some o ∧ findTable db o.tableId = some t ∧
      (t.restaurantId ≠ rid ∨ (t.restaurantId = rid ∧ o.tableId ≠ tid))) := by
  cases hfo : findOrder db oid with
  | none => exact Or.inl rfl
  | some o =>
    right
    have homem : o ∈ db.orders := List.mem_of_find?_eq_some hfo
    have htS : (findTable db o.tableId).isSome := hwf.ordersRefTables o homem
    cases hftb : findTable db o.tableId with
    | none => rw [hftb] at htS; exact Bool.noConfusion htS
    | some t =>
      refine ⟨o, t, rfl, hftb, ?_⟩
      by_cases hrt : t.restaurantId = rid
      · refine Or.inr ⟨hrt, ?_⟩
        intro htideq
        rcases h with h | h | h
        · have htmem : t ∈ db.tables := List.mem_of_find?_eq_some hftb
          have hrs := hwf.tablesRefRestaurants t htmem
          rw [hrt] at hrs
          have h' : (findRestaurant db rid).isSome = false := h
          exact Bool.noConfusion (hrs.symm.trans h')
        · rw [tableBelongs] at h
          rw [htideq] at hftb
          rw [hftb] at h
          have hb : (t.restaurantId == rid) = true := beq_iff_eq.mpr hrt
          exact Bool.noConfusion (hb.symm.trans h)
        · rw [orderMatches, hfo] at h
          simp only [hftb] at h
          have h1 : (o.tableId == tid) = true := beq_iff_eq.mpr htideq
          have h2 : (t.restaurantId == rid) = true := beq_iff_eq.mpr hrt
          rw [h1, h2] at h
          exact Bool.noConfusion h
      · exact Or.inl hrt

theorem createOrder_notFound_of (db : Db) (rid tid : Nat) (items : List RequestedItem)
    (h : restaurantExists db rid = false ∨ tableBelongs db rid tid = false) :
    isNotFound (OrdersService.createOrder db rid tid items).1 = true := by
  unfold OrdersService.createOrder
  cases hfr : findRestaurant db rid with
  | none => rfl
  | some r =>
    rcases h with h | h
    · rw [restaurantExists, hfr] at h
      exact Bool.noConfusion h
    · cases hft : findTable db tid with
      | none => rfl
      | some t =>
        rw [tableBelongs, hft] at h
        have h' : (t.restaurantId == rid) = false := h
        have hb : (t.restaurantId != rid) = true := by simp [bne, h']
        simp [hb, isNotFound]

theorem getOrderById_notFound_of (db : Db) (rid tid oid : Nat)
    (h : findOrder db oid = none ∨
      (∃ o t, findOrder db oid = some o ∧ findTable db o.tableId = some t ∧
        (t.restaurantId ≠ rid ∨ (t.restaurantId = rid ∧ o.tableId ≠ tid)))) :
    isNotFound (OrdersService.getOrderById db rid tid oid).1 = true := by
  unfold OrdersService.getOrderById
  rcases h with h | ⟨o, t, hfo, hftb, hdis⟩
  · rw [h]; rfl
  · simp only [hfo, hftb]
    rcases hdis with hne | ⟨hrt, htne⟩
    · have hb : (t.restaurantId != rid) = true := bne_iff_ne.mpr hne
      simp [hb, isNotFound]
    · have h1 : (t.restaurantId != rid) = false := by simp [bne, hrt]
      have h2 : (o.tableId != tid) = true := bne_iff_ne.mpr htne
      simp [h1, h2, isNotFound]

theorem cancelOrder_notFound_of (db : Db) (rid tid oid : Nat)
    (h : findOrder db oid = none ∨
      (∃ o t, findOrder db oid = some o ∧ findTable db o.tableId = some t ∧
        (t.restaurantId ≠ rid ∨ (t.restaurantId = rid ∧ o.tableId ≠ tid)))) :
    isNotFound (OrdersService.cancelOrder db rid tid oid).1 = true := by
  unfold OrdersService.cancelOrder
  rcases h with h | ⟨o, t, hfo, hftb, hdis⟩
  · rw [h]; rfl
  · simp only [hfo, hftb]
    rcases hdis with hne | ⟨hrt, htne⟩
    · have hb : (t.restaurantId != rid) = true := bne_iff_ne.mpr hne
      simp [hb, isNotFound]
    · have h1 : (t.restaurantId != rid) = false := by simp [bne, hrt]
      have h2 : (o.tableId != tid) = true := bne_iff_ne.mpr htne
      simp [h1, h2, isNotFound]

theorem addItemsSimple_notFound_of (db : Db) (rid tid oid : Nat) (items : List RequestedItem)
    (h : findOrder db oid = none ∨
      (∃ o t, findOrder db oid = some o ∧ findTable db o.tableId = some t ∧
        (t.restaurantId ≠ rid ∨ (t.restaurantId = rid ∧ o.tableId ≠ tid)))) :
    isNotFound (OrdersService.addItemsToOrder db rid tid oid items).1 = true := by
  unfold OrdersService.addItemsToOrder
  rcases h with h | ⟨o, t, hfo, hftb, hdis⟩
  · rw [h]; rfl
  · simp only [hfo, hftb]
    rcases hdis with hne | ⟨hrt, htne⟩
    · have hb : (t.restaurantId != rid) = true := bne_iff_ne.mpr hne
      simp [hb, isNotFound]
    · have h1 : (t.restaurantId != rid) = false := by simp [bne, hrt]
      have h2 : (o.tableId != tid) = true := bne_iff_ne.mpr htne
      simp [h1, h2, isNotFound]

theorem updateOrderStatus_notFound_of (db : Db) (rid tid oid : Nat) (st : OrderStatus)
    (h : findOrder db oid = none ∨
      (∃ o t, findOrder db oid = some o ∧ findTable db o.tableId = some t ∧
        (t.restaurantId ≠ rid ∨ (t.restaurantId = rid ∧ o.tableId ≠ tid)))) :
    isNotFound (OrderTablesService.updateOrderStatus db rid tid oid st).1 = true := by
  unfold OrderTablesService.updateOrderStatus
  rcases h with h | ⟨o, t, hfo, hftb, hdis⟩
  · rw [h]; rfl
  · simp only [hfo, hftb]
    rcases hdis with hne | ⟨hrt, htne⟩
    · have hb : (t.restaurantId != rid) = true := bne_iff_ne.mpr hne
      simp [hb, isNotFound]
    · have h1 : (t.restaurantId != rid) = false := by simp [bne, hrt]
      have h2 : (o.tableId != tid) = true := bne_iff_ne.mpr htne
      simp [h1, h2, isNotFound]

theorem addItemsTracked_notFound_of (db : Db) (rid tid oid : Nat) (items : List RequestedItem)
    (h : findOrder db oid = none ∨
      (∃ o t, findOrder db oid = some o ∧ findTable db o.tableId = some t ∧
        (t.restaurantId ≠ rid ∨ (t.restaurantId = rid ∧ o.tableId ≠ tid)))) :
    isNotFound (OrderTablesService.addItemsToOrder db rid tid oid items).1 = true := by
  unfold OrderTablesService.addItemsToOrder
  rcases h with h | ⟨o, t, hfo, hftb, hdis⟩
  · rw [h]; rfl
  · simp only [hfo, hftb]
    rcases hdis with hne | ⟨hrt, htne⟩
    · have hb : (t.restaurantId != rid) = true := bne_iff_ne.mpr hne
      simp [hb, isNotFound]
    · have h1 : (t.restaurantId != rid) = false := by simp [bne, hrt]
      have h2 : (o.tableId != tid) = true := bne_iff_ne.mpr htne
      simp [h1, h2, isNotFound]

/-- C2.  Under the referential invariants, every order operation — both
service variants — fails with NotFound (a) whenever the restaurant does
not exist or the table does not exist or belongs to a different
restaurant (regardless of whether the table exists under another
restaurant), and (b) whenever the order does not exist or its
table/restaurant does not match the given path ids. -/
theorem order_ops_notFound (db : Db) (rid tid oid : Nat) (items : List RequestedItem)
    (st : OrderStatus) (hwf : WF db) :
    (restaurantExists db rid = false ∨ tableBelongs db rid tid = false →
      isNotFound (OrdersService.createOrder db rid tid items).1 = true ∧
      isNotFound (OrdersService.getOrderById db rid tid oid).1 = true ∧
      isNotFound (OrdersService.cancelOrder db rid tid oid).1 = true ∧
      isNotFound (OrdersService.addItemsToOrder db rid tid oid items).1 = true ∧
      isNotFound (OrderTablesService.updateOrderStatus db rid tid oid st).1 = true ∧
      isNotFound (OrderTablesService.cancelOrder db rid tid oid).1 = true ∧
      isNotFound (OrderTablesService.addItemsToOrder db rid tid oid items).1 = true) ∧
    (orderMatches db rid tid oid = false →
      isNotFound (OrdersService.getOrderById db rid tid oid).1 = true ∧
      isNotFound (OrdersService.cancelOrder db rid tid oid).1 = true ∧
      isNotFound (OrdersService.addItemsToOrder db rid tid oid items).1 = true ∧
      isNotFound (OrderTablesService.updateOrderStatus db rid tid oid st).1 = true ∧
      isNotFound (OrderTablesService.cancelOrder db rid tid oid).1 = true ∧
      isNotFound (OrderTablesService.addItemsToOrder db rid tid oid items).1 = true) := by
  constructor
  · intro h
    have hg := order_guard db rid tid oid hwf (h.imp id Or.inl)
    exact ⟨createOrder_notFound_of db rid tid items h,
      getOrderById_notFound_of db rid tid oid hg,
      cancelOrder_notFound_of db rid tid oid hg,
      addItemsSimple_notFound_of db rid tid oid items hg,
      updateOrderStatus_notFound_of db rid tid oid st hg,
      updateOrderStatus_notFound_of db rid tid oid .CANCELLED hg,
      addItemsTracked_notFound_of db rid tid oid items hg⟩
  · intro h
    have hg := order_guard db rid tid oid hwf (Or.inr (Or.inr h))
    exact ⟨getOrderById_notFound_of db rid tid oid hg,
      cancelOrder_notFound_of db rid tid oid hg,
      addItemsSimple_notFound_of db rid tid oid items hg,
      updateOrderStatus_notFound_of db rid tid oid st hg,
      updateOrderStatus_notFound_of db rid tid oid .CANCELLED hg,
      addItemsTracked_notFound_of db rid tid oid items hg⟩

/-- C2, witness: restaurant 99 does not exist in `sampleDb`, and
order 300 sits at a table of restaurant 2, not restaurant 1. -/
theorem order_ops_notFound_witness :
    isNotFound (OrdersService.createOrder sampleDb 99 5 []).1 = true ∧
    isNotFound (OrdersService.getOrderById sampleDb 1 5 300).1 = true := by
  refine ⟨?_, ?_⟩
  · exact ((order_ops_notFound sampleDb 99 5 300 [] .PENDING sampleDb_wf).1
      (Or.inl (by decide))).1
  · exact ((order_ops_notFound sampleDb 1 5 300 [] .PENDING sampleDb_wf).2
      (by decide)).1

/-- C4, counterexample.  The claim demands bit-exact parity between two
`addItemsToOrder` calls with lists A then B and one call with A ++ B.
Starting from stored total 0.10 (order 100 of `sampleDb`), adding
[$0.20 × 1] then [$0.30 × 1] stores 0.6000000000000001, while the
single combined call stores 0.6: binary64 addition is not associative,
so the parity fails. -/
theorem addItems_repeat_parity_cex :
    ((createdTotal? (OrdersService.addItemsToOrder
        ((OrdersService.addItemsToOrder sampleDb 1 5 100 [⟨3, 1⟩]).2) 1 5 100 [⟨4, 1⟩]).1).map
      (fun t => qEq t (Q.mk 6000000000000001 10000000000000000))) = some true ∧
    ((createdTotal? (OrdersService.addItemsToOrder sampleDb 1 5 100 [⟨3, 1⟩, ⟨4, 1⟩]).1).map
      (fun t => qEq t (Q.mk 6 10))) = some true ∧
    qEq (Q.mk 6000000000000001 10000000000000000) (Q.mk 6 10) = false := by
  refine ⟨?_, ?_, ?_⟩
  · decide
  · decide
  · decide

/-- C4, amended.  On success, the total stored by `addItemsToOrder` is
computed solely from the previous stored total and the freshly resolved
lines — `Decimal(Number(prev) + Σ lines)` in binary64 — never from the
order's existing item rows; the two-call versus one-call parity claimed
for repeated adds does not hold in general (see the counterexample). -/
theorem addItems_incremental_total (db : Db) (rid tid oid : Nat)
    (items : List RequestedItem) (o : Order)
    (h : (OrdersService.addItemsToOrder db rid tid oid items).1 = .ok o) :
    ∃ prev lines,
      findOrder db oid = some prev ∧
      buildOrderLines (resolveMenuItems db rid (items.map (fun it => it.menuItemId))) items =
        .ok lines ∧
      o.total = prismaDecimalOfNumber (jsAdd (fpRound prev.total) (linesTotal lines)) := by
  unfold OrdersService.addItemsToOrder at h
  cases hfo : findOrder db oid with
  | none => rw [hfo] at h; exact Except.noConfusion h
  | some prev =>
    rw [hfo] at h
    dsimp only [] at h
    cases hftb : findTable db prev.tableId with
    | none => rw [hftb] at h; exact Except.noConfusion h
    | some t =>
      rw [hftb] at h
      dsimp only [] at h
      by_cases h1 : (t.restaurantId != rid) = true
      · rw [if_pos h1] at h; exact Except.noConfusion h
      · rw [if_neg h1] at h
        by_cases h2 : (prev.tableId != tid) = true
        · rw [if_pos h2] at h; exact Except.noConfusion h
        · rw [if_neg h2] at h
          by_cases h3 : ((resolveMenuItems db rid (items.map (fun it => it.menuItemId))).length !=
              (items.map (fun it => it.menuItemId)).length) = true
          · rw [if_pos h3] at h; exact Except.noConfusion h
          · rw [if_neg h3] at h
            cases hbl : buildOrderLines (resolveMenuItems db rid
                (items.map (fun it => it.menuItemId))) items with
            | error e => rw [hbl] at h; exact Except.noConfusion h
            | ok lines =>
              rw [hbl] at h
              refine ⟨prev, lines, rfl, rfl, ?_⟩
              have ho : o = { prev with total := prismaDecimalOfNumber (jsAdd (fpRound prev.total) (linesTotal lines)) } := by
                cases h
                rfl
              rw [ho]

/-- C4, amended-claim witness: adding [$0.20 × 1] to order 100 of
`sampleDb` (stored total 0.10). -/
theorem addItems_incremental_total_witness :
    ∃ prev lines,
      findOrder sampleDb 100 = some prev ∧
      buildOrderLines (resolveMenuItems sampleDb 1
        ([(⟨3, 1⟩ : RequestedItem)].map (fun it => it.menuItemId))) [⟨3, 1⟩] = .ok lines ∧
      (prismaDecimalOfNumber (jsAdd (fpRound (Q.mk 10 100))
          (linesTotal [(⟨3, 1⟩, ⟨3, "Twenty", "", ⟨20, 100⟩, "USD", true, [], [], 1⟩)]))) =
        prismaDecimalOfNumber (jsAdd (fpRound prev.total) (linesTotal lines)) :=
  addItems_incremental_total sampleDb 1 5 100 [⟨3, 1⟩]
    ⟨100, 5, prismaDecimalOfNumber (jsAdd (fpRound (Q.mk 10 100))
      (linesTotal [(⟨3, 1⟩, ⟨3, "Twenty", "", ⟨20, 100⟩, "USD", true, [], [], 1⟩)])),
      "USD", .PENDING⟩ (by decide)

theorem insertByNumber_length (t : Table) (l : List Table) :
    (TablesService.insertByNumber t l).length = l.length + 1 := by
  induction l with
  | nil => rfl
  | cons u us ih =>
    unfold TablesService.insertByNumber
    by_cases h : t.tableNumber ≤ u.tableNumber
    · rw [if_pos h]
      rfl
    · rw [if_neg h]
      simp [ih]

theorem sortByNumber_length (l : List Table) :
    (TablesService.sortByNumber l).length = l.length := by
  induction l with
  | nil => rfl
  | cons u us ih =>
    unfold TablesService.sortByNumber at ih ⊢
    simp [List.foldr_cons, insertByNumber_length, ih]

theorem generatedTables_restaurant (db : Db) (rid n : Nat) :
    ∀ t ∈ TablesService.generatedTables db rid n, t.restaurantId = rid := by
  intro t ht
  rcases List.mem_map.mp ht with ⟨i, _, rfl⟩
  rfl

theorem generatedTables_filter (db : Db) (rid n : Nat) :
    (TablesService.generatedTables db rid n).filter (fun t => t.restaurantId == rid) =
      TablesService.generatedTables db rid n := by
  rw [List.filter_eq_self]
  intro t ht
  exact beq_iff_eq.mpr (generatedTables_restaurant db rid n t ht)

theorem generatedTables_numbers (db : Db) (rid n : Nat) :
    (TablesService.generatedTables db rid n).map (fun t => t.tableNumber) =
      List.range' 1 n := by
  unfold TablesService.generatedTables
  rw [List.map_map, List.range'_eq_map_range]
  apply List.map_congr_left
  intro i _
  simp [Nat.add_comm]

/-- C7.  With the restaurant present: a read of its tables when none
exist persists exactly `numberOfTables` fresh rows numbered 1 through
`numberOfTables` (appended to the otherwise untouched table list); a
read when any tables exist mutates nothing; and a second read right
after any read returns the same response on the same state — the lazy
generation side effect happens at most once, guarded by the emptiness
check. -/
theorem tables_lazy_generation (db : Db) (rid : Nat) (r : Restaurant)
    (hr : findRestaurant db rid = some r) :
    (TablesService.tablesOf db rid = [] →
      (TablesService.getTablesByRestaurant db rid).2.tables =
        db.tables ++ TablesService.generatedTables db rid r.numberOfTables ∧
      (TablesService.generatedTables db rid r.numberOfTables).map (fun t => t.tableNumber) =
        List.range' 1 r.numberOfTables) ∧
    (TablesService.tablesOf db rid ≠ [] →
      (TablesService.getTablesByRestaurant db rid).2 = db) ∧
    TablesService.getTablesByRestaurant (TablesService.getTablesByRestaurant db rid).2 rid =
      TablesService.getTablesByRestaurant db rid := by
  have hpart1 : TablesService.tablesOf db rid = [] →
      TablesService.getTablesByRestaurant db rid =
        (Except.ok (r.name,
          (TablesService.sortByNumber
            (TablesService.tablesOf (dbAfterGen db rid r.numberOfTables) rid)).map
            (TablesService.withStatus (dbAfterGen db rid r.numberOfTables))),
          dbAfterGen db rid r.numberOfTables) := by
    intro h0
    unfold TablesService.getTablesByRestaurant TablesService.generateTablesForRestaurant
    simp only [hr, h0]
    rfl
  have hpart2 : TablesService.tablesOf db rid ≠ [] →
      TablesService.getTablesByRestaurant db rid =
        (Except.ok (r.name, (TablesService.sortByNumber (TablesService.tablesOf db rid)).map
          (TablesService.withStatus db)), db) := by
    intro hne
    have hlen : (TablesService.sortByNumber (TablesService.tablesOf db rid)).length ≠ 0 := by
      rw [sortByNumber_length]
      intro hz
      exact hne (List.length_eq_zero.mp hz)
    have hcond : ((TablesService.sortByNumber (TablesService.tablesOf db rid)).length == 0) = false :=
      beq_eq_false_iff_ne.mpr hlen
    unfold TablesService.getTablesByRestaurant
    simp only [hr, hcond]
    rfl
  refine ⟨?_, ?_, ?_⟩
  · intro h0
    rw [hpart1 h0]
    exact ⟨rfl, generatedTables_numbers db rid r.numberOfTables⟩
  · intro hne
    rw [hpart2 hne]
  · by_cases h0 : TablesService.tablesOf db rid = []
    · rw [hpart1 h0]
      dsimp only []
      by_cases hn : r.numberOfTables = 0
      · have hgen : TablesService.generatedTables db rid r.numberOfTables = [] := by
          rw [hn]; rfl
        have hdb : dbAfterGen db rid r.numberOfTables = db := by
          unfold dbAfterGen
          rw [hgen, hn]
          cases db
          simp
        rw [hdb, hpart1 h0, hdb]
      · have htf : TablesService.tablesOf (dbAfterGen db rid r.numberOfTables) rid =
            TablesService.generatedTables db rid r.numberOfTables := by
          unfold TablesService.tablesOf at h0 ⊢
          unfold dbAfterGen
          simp only [List.filter_append]
          rw [h0, generatedTables_filter]
          rfl
        have hlen2 : (TablesService.sortByNumber
            (TablesService.tablesOf (dbAfterGen db rid r.numberOfTables) rid)).length ≠ 0 := by
          rw [sortByNumber_length, htf]
          unfold TablesService.generatedTables
          simp [hn]
        have hcond2 : ((TablesService.sortByNumber
            (TablesService.tablesOf (dbAfterGen db rid r.numberOfTables) rid)).length == 0) = false :=
          beq_eq_false_iff_ne.mpr hlen2
        have hr2 : findRestaurant (dbAfterGen db rid r.numberOfTables) rid = some r := hr
        unfold TablesService.getTablesByRestaurant
        simp only [hr2, hcond2]
        rfl
    · rw [hpart2 h0, hpart2 h0]

/-- C7, witness: restaurant 3 of `sampleDb` has two configured tables
and none persisted. -/
theorem tables_lazy_generation_witness :
    (TablesService.getTablesByRestaurant sampleDb 3).2.tables =
      sampleDb.tables ++ TablesService.generatedTables sampleDb 3 2 ∧
    TablesService.getTablesByRestaurant (TablesService.getTablesByRestaurant sampleDb 3).2 3 =
      TablesService.getTablesByRestaurant sampleDb 3 :=
  ⟨((tables_lazy_generation sampleDb 3 ⟨3, 12, 2, "Fresh Start"⟩ (by decide)).1 (by decide)).1,
    (tables_lazy_generation sampleDb 3 ⟨3, 12, 2, "Fresh Start"⟩ (by decide)).2.2⟩

/-- C3.  With valid restaurant/table/order context, whenever at least
one requested id does not resolve (missing, foreign, or unavailable),
both `createOrder` and `addItemsToOrder` fail with a BadRequest whose
message lists exactly the requested ids not present in the resolved
set, that list is non-empty, and the database is returned unchanged (no
Order or OrderItem rows are created). -/
theorem resolve_missing_badRequest (db : Db) (rid tid oid : Nat)
    (items : List RequestedItem) (hwf : WF db)
    (hr : restaurantExists db rid = true) (ht : tableBelongs db rid tid = true)
    (ho : orderMatches db rid tid oid = true)
    (i : Nat) (hmem : i ∈ items.map (fun it => it.menuItemId))
    (hnr : resolvableB db rid i = false) :
    OrdersService.createOrder db rid tid items =
      (.error (.badRequest (missingMessage ((items.map (fun it => it.menuItemId)).filter
        (fun j => !resolvableB db rid j)))), db) ∧
    OrdersService.addItemsToOrder db rid tid oid items =
      (.error (.badRequest (missingMessage ((items.map (fun it => it.menuItemId)).filter
        (fun j => !resolvableB db rid j)))), db) ∧
    ((items.map (fun it => it.menuItemId)).filter (fun j => !resolvableB db rid j)) ≠ [] := by
  have hlt := resolve_length_lt_of_missing db rid (items.map (fun it => it.menuItemId))
    hwf i hmem hnr
  have hne : ((resolveMenuItems db rid (items.map (fun it => it.menuItemId))).length !=
      (items.map (fun it => it.menuItemId)).length) = true :=
    bne_iff_ne.mpr (Nat.ne_of_lt hlt)
  have hmiss := missingIds_eq_filter db rid (items.map (fun it => it.menuItemId))
  refine ⟨?_, ?_, ?_⟩
  · cases hfr : findRestaurant db rid with
    | none => rw [restaurantExists, hfr] at hr; exact Bool.noConfusion hr
    | some r =>
      cases hft : findTable db tid with
      | none => rw [tableBelongs, hft] at ht; exact Bool.noConfusion ht
      | some t =>
        rw [tableBelongs, hft] at ht
        have ht' : (t.restaurantId == rid) = true := ht
        have hbne : ¬ ((t.restaurantId != rid) = true) := by simp [bne, ht']
        unfold OrdersService.createOrder
        simp only [hfr, hft]
        rw [if_neg hbne, if_pos hne, hmiss]
  · cases hfo : findOrder db oid with
    | none => rw [orderMatches, hfo] at ho; exact Bool.noConfusion ho
    | some o =>
      rw [orderMatches, hfo] at ho
      rcases Bool.and_eq_true_iff.mp ho with ⟨htid, hrest⟩
      cases hftb : findTable db o.tableId with
      | none => rw [hftb] at hrest; exact Bool.noConfusion hrest
      | some t2 =>
        rw [hftb] at hrest
        have hrt : (t2.restaurantId == rid) = true := hrest
        have hb1 : ¬ ((t2.restaurantId != rid) = true) := by simp [bne, hrt]
        have hb2 : ¬ ((o.tableId != tid) = true) := by simp [bne, htid]
        unfold OrdersService.addItemsToOrder
        simp only [hfo, hftb]
        rw [if_neg hb1, if_neg hb2, if_pos hne, hmiss]
  · intro hnil
    have : i ∈ (items.map (fun it => it.menuItemId)).filter (fun j => !resolvableB db rid j) :=
      List.mem_filter.mpr ⟨hmem, by simp [hnr]⟩
    rw [hnil] at this
    exact List.not_mem_nil i this

/-- C3, witness: restaurant 1 / table 5 / order 100 of `sampleDb`, with
id 999 absent, id 5 unavailable, and id 9 owned by another restaurant. -/
theorem resolve_missing_badRequest_witness :
    OrdersService.createOrder sampleDb 1 5 [⟨2, 1⟩, ⟨999, 1⟩, ⟨5, 1⟩, ⟨9, 1⟩] =
      (.error (.badRequest (missingMessage
        (([(⟨2, 1⟩ : RequestedItem), ⟨999, 1⟩, ⟨5, 1⟩, ⟨9, 1⟩].map
          (fun it => it.menuItemId)).filter (fun j => !resolvableB sampleDb 1 j)))), sampleDb) :=
  (resolve_missing_badRequest sampleDb 1 5 100 [⟨2, 1⟩, ⟨999, 1⟩, ⟨5, 1⟩, ⟨9, 1⟩]
    sampleDb_wf (by decide) (by decide) (by decide) 999 (by decide) (by decide)).1

/-- C10.  If the items list repeats a menu item id while every listed
id exists, is owned by the restaurant and is available, both
`createOrder` and `addItemsToOrder` still fail — the resolved distinct
rows cannot match the duplicated request count — and the BadRequest
carries an empty missing-id list (`missingMessage []`); the database is
returned unchanged. -/
theorem duplicate_ids_badRequest (db : Db) (rid tid oid : Nat)
    (items : List RequestedItem) (hwf : WF db)
    (hr : restaurantExists db rid = true) (ht : tableBelongs db rid tid = true)
    (ho : orderMatches db rid tid oid = true)
    (hdup : ¬ (items.map (fun it => it.menuItemId)).Nodup)
    (hall : ∀ i ∈ items.map (fun it => it.menuItemId), resolvableB db rid i = true) :
    OrdersService.createOrder db rid tid items =
      (.error (.badRequest (missingMessage [])), db) ∧
    OrdersService.addItemsToOrder db rid tid oid items =
      (.error (.badRequest (missingMessage [])), db) := by
  have hlt := resolve_length_lt_of_dup db rid (items.map (fun it => it.menuItemId))
    hwf hdup hall
  have hne : ((resolveMenuItems db rid (items.map (fun it => it.menuItemId))).length !=
      (items.map (fun it => it.menuItemId)).length) = true :=
    bne_iff_ne.mpr (Nat.ne_of_lt hlt)
  have hmiss : missingIds (items.map (fun it => it.menuItemId))
      (resolveMenuItems db rid (items.map (fun it => it.menuItemId))) = [] := by
    rw [missingIds_eq_filter db rid (items.map (fun it => it.menuItemId))]
    rw [List.filter_eq_nil_iff]
    intro j hj
    simp [hall j hj]
  constructor
  · cases hfr : findRestaurant db rid with
    | none => rw [restaurantExists, hfr] at hr; exact Bool.noConfusion hr
    | some r =>
      cases hft : findTable db tid with
      | none => rw [tableBelongs, hft] at ht; exact Bool.noConfusion ht
      | some t =>
        rw [tableBelongs, hft] at ht
        have ht' : (t.restaurantId == rid) = true := ht
        have hbne : ¬ ((t.restaurantId != rid) = true) := by simp [bne, ht']
        unfold OrdersService.createOrder
        simp only [hfr, hft]
        rw [if_neg hbne, if_pos hne, hmiss]
  · cases hfo : findOrder db oid with
    | none => rw [orderMatches, hfo] at ho; exact Bool.noConfusion ho
    | some o =>
      rw [orderMatches, hfo] at ho
      rcases Bool.and_eq_true_iff.mp ho with ⟨htid, hrest⟩
      cases hftb : findTable db o.tableId with
      | none => rw [hftb] at hrest; exact Bool.noConfusion hrest
      | some t2 =>
        rw [hftb] at hrest
        have hrt : (t2.restaurantId == rid) = true := hrest
        have hb1 : ¬ ((t2.restaurantId != rid) = true) := by simp [bne, hrt]
        have hb2 : ¬ ((o.tableId != tid) = true) := by simp [bne, htid]
        unfold OrdersService.addItemsToOrder
        simp only [hfo, hftb]
        rw [if_neg hb1, if_neg hb2, if_pos hne, hmiss]

/-- C10, witness: requesting available item 2 twice at restaurant 1 /
table 5 / order 100 of `sampleDb`. -/
theorem duplicate_ids_badRequest_witness :
    OrdersService.createOrder sampleDb 1 5 [⟨2, 1⟩, ⟨2, 1⟩] =
      (.error (.badRequest (missingMessage [])), sampleDb) :=
  (duplicate_ids_badRequest sampleDb 1 5 100 [⟨2, 1⟩, ⟨2, 1⟩] sampleDb_wf
    (by decide) (by decide) (by decide) (by decide) (by decide)).1

/-- C8, counterexample.  The claim says any present availability value
outside `{true, 1, yes, available}` yields `isAvailable = false`.  The
empty string is such a value (its trimmed lower-casing is not in the
set), yet the import maps it to `true`, because `row.isAvailable ?`
treats the empty string as falsy and takes the default branch. -/
theorem parseAvailability_empty_string_cex :
    (["true", "1", "yes", "available"].contains (jsTrim (jsToLower "")) = false) ∧
    parseAvailability (some "") = true := by
  constructor
  · decide
  · decide

/-- C8, amended.  Availability parsing is case-insensitive membership
of the trimmed lower-cased value in `{true, 1, yes, available}` for any
present non-empty value; absence of the field or an empty-string value
both default to `true`. -/
theorem parseAvailability_spec (s : String) :
    (s ≠ "" → parseAvailability (some s) =
      ["true", "1", "yes", "available"].contains (jsTrim (jsToLower s))) ∧
    parseAvailability (some "") = true ∧
    parseAvailability none = true := by
  refine ⟨?_, by decide, rfl⟩
  intro hs
  have hb : (s != "") = true := bne_iff_ne.mpr hs
  simp [parseAvailability, hb]

/-- C8, amended-claim witness at the value `" Available "`. -/
theorem parseAvailability_spec_witness :
    parseAvailability (some " Available ") =
      ["true", "1", "yes", "available"].contains (jsTrim (jsToLower " Available ")) :=
  (parseAvailability_spec " Available ").1 (by decide)

theorem projR_snoc (db db2 : Db) (rid : Nat) (newCats : List MenuCategory) (item : MenuItem)
    (hcats : db2.categories = db.categories ++ newCats)
    (hitems : db2.menuItems = db.menuItems ++ [item])
    (href : ∀ mi ∈ db.menuItems, (findCategory db mi.categoryId).isSome)
    (hpred : itemInRestaurant db2 rid item = true) :
    projR db2 rid = projR db rid ++ [itemProj db2 item] := by
  unfold projR
  rw [hitems, List.filter_append, List.map_append,
    projR_filter_stable db db2 rid newCats hcats href]
  simp [List.filter_cons, hpred]

set_option maxHeartbeats 1000000 in
theorem processRow_step (rid : Nat) (dbA : Db) (cache : List (String × MenuCategory))
    (row : CsvRow) (hinv : ReplaceInv rid (dbA, cache)) :
    ReplaceInv rid (RestaurantService.processRow rid (dbA, cache) row) ∧
    (∃ cNew, (RestaurantService.processRow rid (dbA, cache) row).1.categories =
        dbA.categories ++ cNew ∧
      ∀ c ∈ cNew, c.id = dbA.nextCategoryId ∧ c.restaurantId = rid) ∧
    (∃ item, (RestaurantService.processRow rid (dbA, cache) row).1.menuItems =
        dbA.menuItems ++ [item] ∧ item.id = dbA.nextMenuItemId) ∧
    dbA.nextCategoryId ≤ (RestaurantService.processRow rid (dbA, cache) row).1.nextCategoryId ∧
    dbA.nextMenuItemId ≤ (RestaurantService.processRow rid (dbA, cache) row).1.nextMenuItemId ∧
    (∀ n, n ∈ namesR (RestaurantService.processRow rid (dbA, cache) row).1 rid ↔
      (n ∈ namesR dbA rid ∨ n = jsTrim row.category)) ∧
    projR (RestaurantService.processRow rid (dbA, cache) row).1 rid =
      projR dbA rid ++ [rowProj row] := by
  obtain ⟨hc, hidN, hidLt, href, hnN⟩ := hinv
  dsimp only [] at hc hidN hidLt href hnN
  cases hfind : cache.find? (fun p => p.1 == cacheKey rid (jsTrim row.category)) with
  | some p =>
    have hpmem : p ∈ cache := List.mem_of_find?_eq_some hfind
    have hppred := List.find?_some hfind
    rw [hc] at hpmem
    obtain ⟨c, hcmem, hpc⟩ := List.mem_map.mp hpmem
    subst hpc
    dsimp only [] at hppred
    have hname : c.name = jsTrim row.category := cacheKey_inj rid _ _ (beq_iff_eq.mp hppred)
    have hcmem' := hcmem
    unfold catsR at hcmem'
    obtain ⟨hcdb, hcrid⟩ := List.mem_filter.mp hcmem'
    have hfc : dbA.categories.find? (fun x => x.id == c.id) = some c :=
      find?_id_unique dbA.categories c hidN hcdb
    simp only [RestaurantService.processRow, hfind]
    refine ⟨⟨hc, hidN, hidLt, ?_, hnN⟩, ⟨[], by simp, by simp⟩, ⟨_, rfl, rfl⟩,
      Nat.le_refl _, Nat.le_succ _, ?_, ?_⟩
    · intro mi hmi
      rcases List.mem_append.mp hmi with hold | hnew
      · exact href mi hold
      · rw [List.mem_singleton.mp hnew]
        simp only [findCategory]
        rw [hfc]
        rfl
    · intro n
      constructor
      · exact Or.inl
      · rintro (hn | rfl)
        · exact hn
        · exact List.mem_map.mpr ⟨c, hcmem, hname⟩
    · refine Eq.trans (projR_snoc dbA _ rid [] _ (List.append_nil _).symm rfl href ?_) ?_
      · simp only [itemInRestaurant, findCategory]
        rw [hfc]
        exact hcrid
      · refine congrArg₂ (· ++ ·) rfl ?_
        simp only [itemProj, catNameOf, findCategory, rowProj, rowPrice]
        rw [hfc]
        simp [hname]
  | none =>
    cases hff : dbA.categories.find?
        (fun c => c.name == jsTrim row.category && c.restaurantId == rid) with
    | some c =>
      exfalso
      have hcm := List.mem_of_find?_eq_some hff
      have hp := List.find?_some hff
      rcases Bool.and_eq_true_iff.mp hp with ⟨hnm, hcr⟩
      have hcname : c.name = jsTrim row.category := beq_iff_eq.mp hnm
      have hcmem : c ∈ catsR dbA rid := by
        unfold catsR
        exact List.mem_filter.mpr ⟨hcm, hcr⟩
      have hentry : (cacheKey rid c.name, c) ∈ cache := by
        rw [hc]
        exact List.mem_map.mpr ⟨c, hcmem, rfl⟩
      have hnone := List.find?_eq_none.mp hfind _ hentry
      apply hnone
      dsimp only []
      rw [hcname]
      exact beq_self_eq_true _
    | none =>
      have hfreshCat : ∀ x ∈ dbA.categories, (x.id == dbA.nextCategoryId) = false :=
        fun x hx => beq_eq_false_iff_ne.mpr (Nat.ne_of_lt (hidLt x hx))
      have hfindOld : dbA.categories.find? (fun x => x.id == dbA.nextCategoryId) = none := by
        apply List.find?_eq_none.mpr
        intro x hx h
        rw [hfreshCat x hx] at h
        exact Bool.noConfusion h
      have hfcstar : (dbA.categories ++ [({ id := dbA.nextCategoryId, name := jsTrim row.category, restaurantId := rid } : MenuCategory)]).find? (fun x => x.id == dbA.nextCategoryId) = some { id := dbA.nextCategoryId, name := jsTrim row.category, restaurantId := rid } := by
        rw [find?_append_none _ _ _ hfindOld]
        simp [List.find?_cons]
      have hnmfresh : jsTrim row.category ∉ namesR dbA rid := by
        intro hmem
        obtain ⟨c0, hc0, hc0n⟩ := List.mem_map.mp hmem
        have hentry : (cacheKey rid c0.name, c0) ∈ cache := by
          rw [hc]
          exact List.mem_map.mpr ⟨c0, hc0, rfl⟩
        apply List.find?_eq_none.mp hfind _ hentry
        dsimp only []
        rw [hc0n]
        exact beq_self_eq_true _
      have hnB : ((dbA.categories ++ [({ id := dbA.nextCategoryId, name := jsTrim row.category, restaurantId := rid } : MenuCategory)]).filter (fun c => c.restaurantId == rid)) = dbA.categories.filter (fun c => c.restaurantId == rid) ++ [({ id := dbA.nextCategoryId, name := jsTrim row.category, restaurantId := rid } : MenuCategory)] := by
        rw [List.filter_append]
        simp
      simp only [RestaurantService.processRow, hfind, hff]
      simp only [catsR, namesR] at hc hnN hnmfresh
      refine ⟨⟨?_, ?_, ?_, ?_, ?_⟩, ?_, ⟨_, rfl, rfl⟩,
        Nat.le_succ _, Nat.le_succ _, ?_, ?_⟩
      · simp only [catsR, hnB, List.map_append, ← hc]
        simp
      · rw [List.map_append]
        refine hidN.append (List.nodup_singleton _) ?_
        intro a ha hb
        obtain ⟨x, hx, hxa⟩ := List.mem_map.mp ha
        have hlt := hidLt x hx
        simp only [List.map_cons, List.map_nil, List.mem_singleton] at hb
        omega
      · intro x hx
        rcases List.mem_append.mp hx with hold | hnew
        · exact Nat.lt_succ_of_lt (hidLt x hold)
        · rw [List.mem_singleton.mp hnew]
          exact Nat.lt_succ_self _
      · intro mi hmi
        rcases List.mem_append.mp hmi with hold | hnew
        · rw [findCategory_append dbA _ _ rfl _ (href mi hold)]
          exact href mi hold
        · rw [List.mem_singleton.mp hnew]
          simp only [findCategory]
          rw [hfcstar]
          rfl
      · simp only [namesR, catsR, hnB, List.map_append]
        refine hnN.append (List.nodup_singleton _) ?_
        intro a ha hb
        simp only [List.map_cons, List.map_nil, List.mem_singleton] at hb
        subst hb
        exact hnmfresh ha
      · refine ⟨[{ id := dbA.nextCategoryId, name := jsTrim row.category, restaurantId := rid }], rfl, ?_⟩
        intro x hx
        rw [List.mem_singleton.mp hx]
        exact ⟨rfl, rfl⟩
      · intro n
        simp only [namesR, catsR, hnB, List.map_append]
        simp [List.mem_append]
      · refine Eq.trans (projR_snoc dbA _ rid _ _ rfl rfl href ?_) ?_
        · simp only [itemInRestaurant, findCategory]
          rw [hfcstar]
          exact beq_self_eq_true _
        · refine congrArg₂ (· ++ ·) rfl ?_
          simp only [itemProj, catNameOf, findCategory, rowProj, rowPrice]
          rw [hfcstar]

theorem validateCsvData_eq (rows : List CsvRow) (hne : rows ≠ []) :
    validateCsvData rows =
      (if csvErrors rows = [] then Except.ok ()
       else Except.error (.badRequestList "CSV validation failed" (csvErrors rows))) := by
  have h0 : ¬ ((rows.length == 0) = true) := by
    cases rows with
    | nil => exact absurd rfl hne
    | cons a l => simp
  simp only [validateCsvData, csvErrors]
  rw [if_neg h0]
  by_cases h : (rows.enum.map (fun p => validateRow p.1 p.2)).flatten = []
  · simp [h]
  · rw [if_pos (List.length_pos.mpr h), if_neg h]

theorem menuCleared_inv (db : Db) (rid : Nat) (hwf : WF db) :
    ReplaceInv rid (menuClearedDb db rid, []) ∧
    namesR (menuClearedDb db rid) rid = [] ∧
    projR (menuClearedDb db rid) rid = [] := by
  have hcats0 : catsR (menuClearedDb db rid) rid = [] := by
    unfold catsR menuClearedDb
    dsimp only []
    rw [List.filter_filter]
    apply List.filter_eq_nil_iff.mpr
    intro c hc h
    rcases Bool.and_eq_true_iff.mp h with ⟨h1, h2⟩
    rw [bne_iff_ne] at h2
    exact h2 (beq_iff_eq.mp h1)
  have hN0 : ((menuClearedDb db rid).categories.map (fun x => x.id)).Nodup := by
    refine List.Nodup.sublist (List.Sublist.map _ ?_) hwf.categoryIdsNodup
    exact List.filter_sublist _
  have hitem0 : ∀ mi ∈ (menuClearedDb db rid).menuItems,
      ∃ c, findCategory (menuClearedDb db rid) mi.categoryId = some c ∧
        (c.restaurantId == rid) = false := by
    intro mi hmi
    have hmi2 : mi ∈ db.menuItems.filter (fun mi => !(itemInRestaurant db rid mi)) := hmi
    have hmem := List.mem_of_mem_filter hmi2
    have hpred : (!(itemInRestaurant db rid mi)) = true := (List.mem_filter.mp hmi2).2
    have hsome := hwf.itemsRefCategories mi hmem
    cases hfc : findCategory db mi.categoryId with
    | none => rw [hfc] at hsome; exact Bool.noConfusion hsome
    | some c =>
      have hfc2 : db.categories.find? (fun x => x.id == mi.categoryId) = some c := hfc
      have hcd : c ∈ db.categories := List.mem_of_find?_eq_some hfc2
      have hcid0 := List.find?_some hfc2
      have hcid : (c.id == mi.categoryId) = true := hcid0
      have hcr : (c.restaurantId == rid) = false := by
        unfold itemInRestaurant at hpred
        rw [hfc] at hpred
        simpa using hpred
      have hc0 : c ∈ (menuClearedDb db rid).categories := by
        unfold menuClearedDb
        dsimp only []
        refine List.mem_filter.mpr ⟨hcd, ?_⟩
        simp [bne, hcr]
      refine ⟨c, ?_, hcr⟩
      have hu := find?_id_unique (menuClearedDb db rid).categories c hN0 hc0
      have hceq : c.id = mi.categoryId := beq_iff_eq.mp hcid
      unfold findCategory
      rw [← hceq]
      exact hu
  have hnames0 : namesR (menuClearedDb db rid) rid = [] := by
    unfold namesR
    rw [hcats0]
    rfl
  have hproj0 : projR (menuClearedDb db rid) rid = [] := by
    unfold projR
    have hfil : (menuClearedDb db rid).menuItems.filter
        (fun mi => itemInRestaurant (menuClearedDb db rid) rid mi) = [] := by
      apply List.filter_eq_nil_iff.mpr
      intro mi hmi h
      obtain ⟨c, hfc, hcr⟩ := hitem0 mi hmi
      unfold itemInRestaurant at h
      rw [hfc] at h
      dsimp only [] at h
      exact Bool.noConfusion (hcr.symm.trans h)
    rw [hfil]
    rfl
  refine ⟨⟨?_, hN0, ?_, ?_, ?_⟩, hnames0, hproj0⟩
  · dsimp only []
    rw [hcats0]
    rfl
  · intro c hc
    exact hwf.categoryIdsLt c (List.mem_of_mem_filter hc)
  · intro mi hmi
    obtain ⟨c, hfc, _⟩ := hitem0 mi hmi
    rw [hfc]
    rfl
  · rw [hnames0]
    exact List.nodup_nil

theorem processRows_spec (rid : Nat) (rows : List CsvRow) :
    ∀ dbA cache, ReplaceInv rid (dbA, cache) →
      ReplaceInv rid (rows.foldl (RestaurantService.processRow rid) (dbA, cache)) ∧
      (∀ n, n ∈ namesR (rows.foldl (RestaurantService.processRow rid) (dbA, cache)).1 rid ↔
        (n ∈ namesR dbA rid ∨ n ∈ rows.map (fun row => jsTrim row.category))) ∧
      projR (rows.foldl (RestaurantService.processRow rid) (dbA, cache)).1 rid =
        projR dbA rid ++ rows.map rowProj := by
  induction rows with
  | nil =>
    intro dbA cache hinv
    exact ⟨hinv, by simp, by simp⟩
  | cons row rs ih =>
    intro dbA cache hinv
    obtain ⟨hinv1, _, _, _, _, hnames1, hproj1⟩ := processRow_step rid dbA cache row hinv
    rw [List.foldl_cons]
    cases hX : RestaurantService.processRow rid (dbA, cache) row with
    | mk dbB cacheB =>
      rw [hX] at hinv1 hnames1 hproj1
      dsimp only [] at hnames1 hproj1
      obtain ⟨hinv2, hnames2, hproj2⟩ := ih dbB cacheB hinv1
      refine ⟨hinv2, ?_, ?_⟩
      · intro n
        rw [hnames2 n, hnames1 n, List.map_cons]
        simp [List.mem_cons, or_assoc]
      · rw [hproj2, hproj1, List.map_cons, List.append_assoc]
        rfl

/-- C5.  Menu replacement validates the whole sheet before any
mutation: with a well-formed database, an existing restaurant and a
matching owner, any validation error (and likewise an empty sheet)
makes `uploadNewRestaurantMenu` fail with the full collected error
list and leave the database completely unchanged; on success it
returns ok and the restaurant's menu afterwards consists exactly of
the uploaded rows: its category names are the distinct trimmed row
categories and its item rows project to the rows' fields in order,
the pre-existing items and categories of the restaurant being gone. -/
theorem menu_replace_atomic (db : Db) (rid oid : Nat) (r : Restaurant) (rows : List CsvRow)
    (hwf : WF db) (hfr : findRestaurant db rid = some r) (hown : r.ownerId = oid) :
    (csvErrors rows ≠ [] → rows ≠ [] →
      RestaurantService.uploadNewRestaurantMenu db rid oid rows =
        (Except.error (.badRequestList "CSV validation failed" (csvErrors rows)), db)) ∧
    (rows = [] →
      RestaurantService.uploadNewRestaurantMenu db rid oid rows =
        (Except.error (.badRequest "CSV file is empty or contains no valid data"), db)) ∧
    (csvErrors rows = [] → rows ≠ [] →
      (RestaurantService.uploadNewRestaurantMenu db rid oid rows).1 = Except.ok () ∧
      (namesR (RestaurantService.uploadNewRestaurantMenu db rid oid rows).2 rid).Nodup ∧
      (∀ n, n ∈ namesR (RestaurantService.uploadNewRestaurantMenu db rid oid rows).2 rid ↔
        n ∈ rows.map (fun row => jsTrim row.category)) ∧
      projR (RestaurantService.uploadNewRestaurantMenu db rid oid rows).2 rid =
        rows.map rowProj) := by
  refine ⟨?_, ?_, ?_⟩
  · intro herr hne
    simp only [RestaurantService.uploadNewRestaurantMenu, hfr]
    rw [hown, bne_self_eq_false, if_neg Bool.false_ne_true,
      validateCsvData_eq rows hne, if_neg herr]
  · intro hnil
    subst hnil
    simp only [RestaurantService.uploadNewRestaurantMenu, hfr]
    rw [hown, bne_self_eq_false, if_neg Bool.false_ne_true]
    rfl
  · intro herr hne
    obtain ⟨hinv0, hnames0, hproj0⟩ := menuCleared_inv db rid hwf
    obtain ⟨hinvF, hnamesF, hprojF⟩ :=
      processRows_spec rid rows (menuClearedDb db rid) [] hinv0
    have hred : RestaurantService.uploadNewRestaurantMenu db rid oid rows =
        (Except.ok (),
          (rows.foldl (RestaurantService.processRow rid) (menuClearedDb db rid, [])).1) := by
      simp only [RestaurantService.uploadNewRestaurantMenu, hfr]
      rw [hown, bne_self_eq_false, if_neg Bool.false_ne_true,
        validateCsvData_eq rows hne, if_pos herr]
      rfl
    rw [hred]
    obtain ⟨_, _, _, _, hnd⟩ := hinvF
    refine ⟨rfl, hnd, ?_, ?_⟩
    · intro n
      have h := hnamesF n
      rw [hnames0] at h
      simpa using h
    · rw [hproj0] at hprojF
      simpa using hprojF

theorem menu_replace_atomic_witness :
    (RestaurantService.uploadNewRestaurantMenu sampleDb 1 10 csvSampleRows).1 = Except.ok () ∧
    projR (RestaurantService.uploadNewRestaurantMenu sampleDb 1 10 csvSampleRows).2 1 =
      csvSampleRows.map rowProj := by
  have h := menu_replace_atomic sampleDb 1 10 ⟨1, 10, 2, "The Italian Corner"⟩ csvSampleRows
    sampleDb_wf (by decide) rfl
  obtain ⟨hok, _, _, hproj⟩ := h.2.2 (by decide) (by decide)
  exact ⟨hok, hproj⟩

end RestaurantBackend
